import Mathlib

/-!
Verification development for the rainfall-station codification core
(`Codificacao_Estacao_Core.py`): station-code generation with per-quadrant
sequence allocation, geographic enrichment, the .mdb import pipeline and the
export routine.  Python digit strings are embedded as big-endian digit lists
(`List ℕ`), Python `float` coordinates as exact rationals, Python `int()`
truncation as `Int.tdiv`, dictionaries as association lists or functions, and
the external database / ODBC layer as explicit data (a list of station rows,
success oracles for inserts).
-/

/-- Digit-string builder: prepends the big-endian decimal digits of `n` to
`acc`.  Structural fuel keeps it kernel-evaluable. -/
def digitsGo : ℕ → ℕ → List ℕ → List ℕ
  | 0, _, acc => acc
  | fuel + 1, n, acc => if n = 0 then acc else digitsGo fuel (n / 10) (n % 10 :: acc)

/-- Big-endian decimal digits of `n` (empty for `0`), mirroring the digits of
Python `str(n)` for positive `n`. -/
def natDigits (n : ℕ) : List ℕ := digitsGo n n []

/-- Numeric value of a big-endian digit string, mirroring Python `int` applied
to a string of digits (leading zeros allowed). -/
def digitsToNat (l : List ℕ) : ℕ := l.foldl (fun a d => a * 10 + d) 0

/-- Python `f"{n:0wd}"` as a digit list: left zero-padded to width at least
`w`, never truncated. -/
def pad (w n : ℕ) : List ℕ := List.replicate (w - (natDigits n).length) 0 ++ natDigits n

theorem digitsGo_spec (n : ℕ) : ∀ (fuel : ℕ) (acc : List ℕ), n ≤ fuel →
    digitsGo fuel n acc = natDigits n ++ acc := by
  induction n using Nat.strong_induction_on with
  | _ n ih =>
    intro fuel acc hle
    match fuel with
    | 0 =>
      have h : n = 0 := Nat.le_zero.mp hle
      subst h
      simp [digitsGo, natDigits]
    | (fuel + 1) =>
      by_cases h0 : n = 0
      · subst h0; simp [digitsGo, natDigits]
      · have hpos : 0 < n := Nat.pos_of_ne_zero h0
        have hdiv : n / 10 < n := Nat.div_lt_self hpos (by norm_num)
        have h1 : n / 10 ≤ fuel := by omega
        have h2 : natDigits n = natDigits (n / 10) ++ [n % 10] := by
          obtain ⟨m, rfl⟩ : ∃ m, n = m + 1 := ⟨n - 1, by omega⟩
          have h3 : (m + 1) / 10 ≤ m := by omega
          show digitsGo (m + 1) (m + 1) [] = _
          rw [show digitsGo (m + 1) (m + 1) [] =
               digitsGo m ((m + 1) / 10) ((m + 1) % 10 :: []) by
             simp [digitsGo, h0]]
          rw [ih ((m + 1) / 10) hdiv m _ h3]
        rw [show digitsGo (fuel + 1) n acc =
             digitsGo fuel (n / 10) (n % 10 :: acc) by simp [digitsGo, h0]]
        rw [ih (n / 10) hdiv fuel _ h1, h2]
        simp

theorem natDigits_cons (n : ℕ) (h : n ≠ 0) :
    natDigits n = natDigits (n / 10) ++ [n % 10] := by
  obtain ⟨m, rfl⟩ : ∃ m, n = m + 1 := ⟨n - 1, by omega⟩
  show digitsGo (m + 1) (m + 1) [] = _
  rw [show digitsGo (m + 1) (m + 1) [] =
       digitsGo m ((m + 1) / 10) ((m + 1) % 10 :: []) by simp [digitsGo, h]]
  exact digitsGo_spec ((m + 1) / 10) m _ (by omega)

theorem foldl_digits_from (b : List ℕ) : ∀ (x : ℕ),
    b.foldl (fun a d => a * 10 + d) x = x * 10 ^ b.length + digitsToNat b := by
  induction b with
  | nil => intro x; simp [digitsToNat]
  | cons d t ih =>
    intro x
    show t.foldl _ (x * 10 + d) = _
    rw [ih (x * 10 + d)]
    have hd : digitsToNat (d :: t) = d * 10 ^ t.length + digitsToNat t := by
      show t.foldl _ (0 * 10 + d) = _
      rw [ih (0 * 10 + d)]; ring_nf
    rw [hd]
    simp [List.length_cons, pow_succ]
    ring

theorem digitsToNat_append (a b : List ℕ) :
    digitsToNat (a ++ b) = digitsToNat a * 10 ^ b.length + digitsToNat b := by
  show (a ++ b).foldl _ 0 = _
  rw [List.foldl_append, foldl_digits_from]
  rfl

theorem digitsToNat_natDigits (n : ℕ) : digitsToNat (natDigits n) = n := by
  induction n using Nat.strong_induction_on with
  | _ n ih =>
    by_cases h0 : n = 0
    · subst h0; simp [natDigits, digitsGo, digitsToNat]
    · have hdiv : n / 10 < n := Nat.div_lt_self (Nat.pos_of_ne_zero h0) (by norm_num)
      rw [natDigits_cons n h0, digitsToNat_append, ih (n / 10) hdiv]
      have : digitsToNat [n % 10] = n % 10 := by simp [digitsToNat]
      rw [this]
      simp
      omega

theorem natDigits_lt_ten (n : ℕ) : ∀ d ∈ natDigits n, d < 10 := by
  induction n using Nat.strong_induction_on with
  | _ n ih =>
    by_cases h0 : n = 0
    · subst h0; simp [natDigits, digitsGo]
    · have hdiv : n / 10 < n := Nat.div_lt_self (Nat.pos_of_ne_zero h0) (by norm_num)
      rw [natDigits_cons n h0]
      intro d hd
      rcases List.mem_append.mp hd with h | h
      · exact ih (n / 10) hdiv d h
      · simp at h; omega

theorem natDigits_len_le (k : ℕ) : ∀ (n : ℕ), n < 10 ^ k → (natDigits n).length ≤ k := by
  induction k with
  | zero =>
    intro n hn
    have : n = 0 := by simpa using hn
    subst this; simp [natDigits, digitsGo]
  | succ k ih =>
    intro n hn
    by_cases h0 : n = 0
    · subst h0; simp [natDigits, digitsGo]
    · rw [natDigits_cons n h0]
      have : n / 10 < 10 ^ k := by
        rw [Nat.div_lt_iff_lt_mul (show 0 < 10 by norm_num)]
        calc n < 10 ^ (k + 1) := hn
        _ = 10 ^ k * 10 := by ring
      simpa using ih (n / 10) this

theorem natDigits_len_ge (k : ℕ) : ∀ (n : ℕ), 10 ^ k ≤ n → k + 1 ≤ (natDigits n).length := by
  induction k with
  | zero =>
    intro n hn
    have h0 : n ≠ 0 := by omega
    rw [natDigits_cons n h0]
    simp
  | succ k ih =>
    intro n hn
    have hp : 0 < 10 ^ (k + 1) := Nat.pos_pow_of_pos _ (by norm_num)
    have h0 : n ≠ 0 := by omega
    rw [natDigits_cons n h0]
    have : 10 ^ k ≤ n / 10 := by
      rw [Nat.le_div_iff_mul_le (by norm_num)]
      calc 10 ^ k * 10 = 10 ^ (k + 1) := by ring
      _ ≤ n := hn
    have := ih (n / 10) this
    simp
    omega

theorem digitsToNat_lt (l : List ℕ) (h : ∀ d ∈ l, d < 10) :
    digitsToNat l < 10 ^ l.length := by
  induction l with
  | nil => simp [digitsToNat]
  | cons d t ih =>
    have hd : digitsToNat (d :: t) = d * 10 ^ t.length + digitsToNat t := by
      show t.foldl _ (0 * 10 + d) = _
      rw [foldl_digits_from]; ring_nf
    rw [hd]
    have h1 : d < 10 := h d (by simp)
    have h2 : digitsToNat t < 10 ^ t.length := ih (fun x hx => h x (by simp [hx]))
    calc d * 10 ^ t.length + digitsToNat t
        < d * 10 ^ t.length + 10 ^ t.length := by omega
    _ = (d + 1) * 10 ^ t.length := by ring
    _ ≤ 10 * 10 ^ t.length := by
        have : d + 1 ≤ 10 := by omega
        exact Nat.mul_le_mul_right _ this
    _ = 10 ^ (d :: t).length := by simp [List.length_cons]; ring

theorem digitsToNat_replicate_zero (k : ℕ) (l : List ℕ) :
    digitsToNat (List.replicate k 0 ++ l) = digitsToNat l := by
  rw [digitsToNat_append]
  have : digitsToNat (List.replicate k 0) = 0 := by
    induction k with
    | zero => simp [digitsToNat]
    | succ k ih =>
      show (List.replicate (k + 1) 0).foldl _ 0 = 0
      rw [List.replicate_succ]
      show (List.replicate k 0).foldl _ (0 * 10 + 0) = 0
      simpa [digitsToNat] using ih
  rw [this]
  simp

theorem digitsToNat_pad (w n : ℕ) : digitsToNat (pad w n) = n := by
  rw [pad, digitsToNat_replicate_zero, digitsToNat_natDigits]

theorem pad_digits_lt (w n : ℕ) : ∀ d ∈ pad w n, d < 10 := by
  intro d hd
  rcases List.mem_append.mp hd with h | h
  · have := List.eq_of_mem_replicate h
    omega
  · exact natDigits_lt_ten n d h

theorem pad_length (w n : ℕ) : (pad w n).length = max w (natDigits n).length := by
  simp [pad]
  omega

theorem pad_length_of_lt (w n : ℕ) (h : n < 10 ^ w) : (pad w n).length = w := by
  rw [pad_length]
  have := natDigits_len_le w n h
  omega

theorem pad_length_three (n : ℕ) (h1 : 100 ≤ n) (h2 : n < 1000) :
    (pad 2 n).length = 3 := by
  rw [pad_length]
  have hle := natDigits_len_le 3 n (by norm_num; omega)
  have hge := natDigits_len_ge 2 n (by norm_num; omega)
  omega

/-- Maximum of a list of naturals, `0` on the empty list; agrees with Python
`max` on nonempty lists of nonnegative integers. -/
def maxList (l : List ℕ) : ℕ := l.foldr max 0

theorem le_maxList (l : List ℕ) (a : ℕ) (h : a ∈ l) : a ≤ maxList l := by
  induction l with
  | nil => simp at h
  | cons x t ih =>
    rcases List.mem_cons.mp h with h | h
    · subst h; exact le_max_left _ _
    · exact le_trans (ih h) (le_max_right _ _)

theorem maxList_mem (l : List ℕ) (h : l ≠ []) : maxList l ∈ l := by
  induction l with
  | nil => simp at h
  | cons x t ih =>
    by_cases ht : t = []
    · subst ht; simp [maxList]
    · have := ih ht
      show max x (maxList t) ∈ x :: t
      rcases le_total x (maxList t) with hle | hle
      · rw [max_eq_right hle]; exact List.mem_cons_of_mem _ this
      · rw [max_eq_left hle]; exact List.mem_cons_self _ _

theorem maxList_append (a b : List ℕ) :
    maxList (a ++ b) = max (maxList a) (maxList b) := by
  induction a with
  | nil => simp [maxList]
  | cons x t ih =>
    show max x (maxList (t ++ b)) = max (max x (maxList t)) (maxList b)
    rw [ih]
    exact (max_assoc _ _ _).symm

/-- Python `str(n)[-3:]` converted back with `int`: the value of the last
three digit characters of `n` (the whole of `n` when it has fewer digits). -/
def lastThree (n : ℕ) : ℕ :=
  digitsToNat ((natDigits n).drop ((natDigits n).length - 3))

theorem lastThree_eq_mod (n : ℕ) : lastThree n = n % 1000 := by
  by_cases h : (natDigits n).length ≤ 3
  · have hdrop : (natDigits n).length - 3 = 0 := by omega
    rw [lastThree, hdrop, List.drop_zero, digitsToNat_natDigits]
    have : n < 10 ^ (natDigits n).length → n < 1000 := by
      intro hx
      calc n < 10 ^ (natDigits n).length := hx
      _ ≤ 10 ^ 3 := Nat.pow_le_pow_right (by norm_num) h
      _ = 1000 := by norm_num
    have hn : n < 1000 := by
      apply this
      have := digitsToNat_lt (natDigits n) (natDigits_lt_ten n)
      rwa [digitsToNat_natDigits] at this
    omega
  · push_neg at h
    set l := natDigits n with hl
    have hsplit : l = l.take (l.length - 3) ++ l.drop (l.length - 3) :=
      (List.take_append_drop _ _).symm
    have hlen : (l.drop (l.length - 3)).length = 3 := by
      rw [List.length_drop]; omega
    have hval : n = digitsToNat (l.take (l.length - 3)) * 1000 +
        digitsToNat (l.drop (l.length - 3)) := by
      conv_lhs => rw [← digitsToNat_natDigits n, ← hl, hsplit]
      rw [digitsToNat_append, hlen]
      norm_num
    have hlt : digitsToNat (l.drop (l.length - 3)) < 1000 := by
      have := digitsToNat_lt (l.drop (l.length - 3))
        (fun d hd => by
          have hmem : d ∈ l := List.mem_of_mem_drop hd
          rw [hl] at hmem
          exact natDigits_lt_ten n d hmem)
      rwa [hlen] at this
    rw [lastThree, ← hl]
    omega

/-- Python `int()` truncation toward zero on an exact rational, via `Int.tdiv`
on the reduced numerator and denominator. -/
def pyTrunc (q : ℚ) : ℤ := Int.tdiv q.num q.den

theorem pyTrunc_eq_floor (q : ℚ) (h : 0 ≤ q) : pyTrunc q = ⌊q⌋ := by
  rw [Rat.floor_def]
  exact Int.tdiv_eq_ediv (Rat.num_nonneg.mpr h) (Int.natCast_nonneg _)

theorem pyTrunc_neg (q : ℚ) : pyTrunc (-q) = -pyTrunc q := by
  unfold pyTrunc
  rw [Rat.neg_num, Rat.neg_den, Int.neg_tdiv]

theorem pyTrunc_natAbs_le (q : ℚ) (C : ℕ) (h1 : -(C : ℚ) ≤ q) (h2 : q ≤ (C : ℚ)) :
    (pyTrunc q).natAbs ≤ C := by
  rcases le_or_lt 0 q with hq | hq
  · rw [pyTrunc_eq_floor q hq]
    have hge : (0 : ℤ) ≤ ⌊q⌋ := Int.floor_nonneg.mpr hq
    have hle : ⌊q⌋ ≤ (C : ℤ) := by
      have := Int.floor_le_floor h2
      rwa [Int.floor_natCast] at this
    omega
  · have hq' : 0 ≤ -q := by linarith
    have h2' : -q ≤ (C : ℚ) := by linarith
    have : pyTrunc q = -pyTrunc (-q) := by rw [pyTrunc_neg]; ring
    rw [this, pyTrunc_eq_floor (-q) hq']
    have hge : (0 : ℤ) ≤ ⌊-q⌋ := Int.floor_nonneg.mpr hq'
    have hle : ⌊-q⌋ ≤ (C : ℤ) := by
      have := Int.floor_le_floor h2'
      rwa [Int.floor_natCast] at this
    omega

theorem pyTrunc_natAbs_lt (q : ℚ) (C : ℕ) (h1 : -(C : ℚ) < q) (h2 : q < (C : ℚ)) :
    (pyTrunc q).natAbs < C := by
  rcases le_or_lt 0 q with hq | hq
  · rw [pyTrunc_eq_floor q hq]
    have hge : (0 : ℤ) ≤ ⌊q⌋ := Int.floor_nonneg.mpr hq
    have hle : ⌊q⌋ < (C : ℤ) := Int.floor_lt.mpr (by exact_mod_cast h2)
    omega
  · have hq' : 0 ≤ -q := by linarith
    have h2' : -q < (C : ℚ) := by linarith
    have heq : pyTrunc q = -pyTrunc (-q) := by rw [pyTrunc_neg]; ring
    rw [heq, pyTrunc_eq_floor (-q) hq']
    have hge : (0 : ℤ) ≤ ⌊-q⌋ := Int.floor_nonneg.mpr hq'
    have hle : ⌊-q⌋ < (C : ℤ) := Int.floor_lt.mpr (by exact_mod_cast h2')
    omega

/-- Latitude band of `gerar_codigo_pluviometrica` (line 135):
`abs(int(latitude)) if latitude < 0 else 80 + int(latitude)`. -/
def bandLat (lat : ℚ) : ℕ :=
  if lat < 0 then (pyTrunc lat).natAbs else (80 + pyTrunc lat).toNat

/-- Longitude band of `gerar_codigo_pluviometrica` (line 138):
`abs(int(longitude))`. -/
def bandLon (lon : ℚ) : ℕ := (pyTrunc lon).natAbs

theorem bandLat_le_170 (lat : ℚ) (h1 : -90 ≤ lat) (h2 : lat ≤ 90) :
    bandLat lat ≤ 170 := by
  unfold bandLat
  split
  · have := pyTrunc_natAbs_le lat 90 (by push_cast; linarith) (by push_cast; linarith)
    omega
  · rename_i hge
    push_neg at hge
    have hf : pyTrunc lat = ⌊lat⌋ := pyTrunc_eq_floor lat hge
    have hge0 : (0 : ℤ) ≤ ⌊lat⌋ := Int.floor_nonneg.mpr hge
    have hle : ⌊lat⌋ ≤ (90 : ℤ) := by
      have := Int.floor_le_floor h2
      have h90 : ⌊(90 : ℚ)⌋ = 90 := by norm_num
      omega
    rw [hf]
    omega

theorem bandLat_le_99 (lat : ℚ) (h1 : -90 ≤ lat) (h2 : lat < 20) :
    bandLat lat ≤ 99 := by
  unfold bandLat
  split
  · have := pyTrunc_natAbs_le lat 90 (by push_cast; linarith) (by
      rename_i hlt; push_cast; linarith)
    omega
  · rename_i hge
    push_neg at hge
    have hf : pyTrunc lat = ⌊lat⌋ := pyTrunc_eq_floor lat hge
    have hge0 : (0 : ℤ) ≤ ⌊lat⌋ := Int.floor_nonneg.mpr hge
    have hle : ⌊lat⌋ < (20 : ℤ) := Int.floor_lt.mpr (by push_cast; linarith)
    rw [hf]
    omega

theorem bandLon_le_180 (lon : ℚ) (h1 : -180 ≤ lon) (h2 : lon ≤ 180) :
    bandLon lon ≤ 180 :=
  pyTrunc_natAbs_le lon 180 (by push_cast; linarith) (by push_cast; linarith)

theorem bandLon_le_99 (lon : ℚ) (h1 : -100 < lon) (h2 : lon < 100) :
    bandLon lon ≤ 99 := by
  have := pyTrunc_natAbs_lt lon 100 (by push_cast; linarith) (by push_cast; linarith)
  unfold bandLon
  omega

/-- A row of `dbo.Estacao` as read by the station queries: its code (as the
BIGINT the query casts to), category and the four exclusion flags, plus the
registry identifier used by `_processar_mdb`. -/
structure Estacao where
  codigo : ℕ
  tipoEstacao : ℕ
  importado : Bool
  removido : Bool
  temporario : Bool
  importadoRepetido : Bool
  registroID : ℕ
deriving DecidableEq, Repr

/-- The state of an `EstacaoManager`: the backing store (`dbo.Estacao`) seen
through its connection, and the `codigos_gerados` session dictionary mapping a
quadrant-prefix digit string to the full numeric codes generated for it in the
current session (missing keys read as `[]`). -/
structure Manager where
  store : List Estacao
  cache : List ℕ → List ℕ

/-- Python exceptions that the core raises, by constructor class. -/
inductive PyError where
  | valueError (msg : String)
  | typeError (msg : String)
  | fileNotFound (msg : String)
  | ioError (msg : String)
  | exception (msg : String)
deriving DecidableEq, Repr

/-- Python `str(e)` on an exception: its message. -/
def PyError.text : PyError → String
  | .valueError m => m
  | .typeError m => m
  | .fileNotFound m => m
  | .ioError m => m
  | .exception m => m

/-- The WHERE filter shared by every station query: `TipoEstacao = 2` and the
four exclusion flags all zero. -/
def isActive (e : Estacao) : Bool :=
  e.tipoEstacao == 2 && e.importado == false && e.removido == false &&
    e.temporario == false && e.importadoRepetido == false

/-- The range query of lines 152-163: active rainfall-station codes whose
numeric value lies in `[lo, hi)`. -/
def storeCodesInRange (store : List Estacao) (lo hi : ℕ) : List ℕ :=
  (store.filter fun e =>
    isActive e && decide (lo ≤ e.codigo) && decide (e.codigo < hi)).map
    fun e => e.codigo

def msgLat : String := "Latitude deve estar entre -90 e 90 graus."

def msgLon : String := "Longitude deve estar entre -180 e 180 graus."

def msgLimite : String :=
  "Limite de estações atingido para esta quadrícula (máximo: 999)."

/-- The two-digit latitude string `lat_valor` (line 136). -/
def latStr (lat : ℚ) : List ℕ := pad 2 (bandLat lat)

/-- The two-digit longitude string `lon_valor` (line 139). -/
def lonStr (lon : ℚ) : List ℕ := pad 2 (bandLon lon)

/-- `prefixo_inicio = f"0{lat_valor}{lon_valor}"` (line 142). -/
def prefixoInicio (lat lon : ℚ) : List ℕ := 0 :: (latStr lat ++ lonStr lon)

/-- `prefixo_fim = f"0{lat_valor}{int(lon_valor) + 1:02d}"` (line 143). -/
def prefixoFim (lat lon : ℚ) : List ℕ :=
  0 :: (latStr lat ++ pad 2 (digitsToNat (lonStr lon) + 1))

/-- `codigo_inicio = int(f"{prefixo_inicio}000")` (line 146). -/
def codigoInicio (lat lon : ℚ) : ℕ := digitsToNat (prefixoInicio lat lon ++ [0, 0, 0])

/-- `codigo_fim = int(f"{prefixo_fim}000")` (line 147). -/
def codigoFim (lat lon : ℚ) : ℕ := digitsToNat (prefixoFim lat lon ++ [0, 0, 0])

/-- `todos_codigos`: the range-query results merged with the session cache
entry for the quadrant (lines 168-172). -/
def todosFor (m : Manager) (lat lon : ℚ) : List ℕ :=
  storeCodesInRange m.store (codigoInicio lat lon) (codigoFim lat lon) ++
    m.cache (prefixoInicio lat lon)

/-- `novo_sequencial` (lines 174-179): one past the last three digits of the
largest merged code, or 1 when nothing was found. -/
def novoSeq (m : Manager) (lat lon : ℚ) : ℕ :=
  if todosFor m lat lon ≠ [] then lastThree (maxList (todosFor m lat lon)) + 1 else 1

/-- Dictionary write `self.codigos_gerados[p] = l` (missing keys read `[]`). -/
def setCache (m : Manager) (p : List ℕ) (l : List ℕ) : Manager :=
  { m with cache := fun q => if q = p then l else m.cache q }

/-- `gerar_codigo_pluviometrica` (lines 123-195) on the embedded state:
validates the coordinates (raising `ValueError` outside the try block),
computes the quadrant prefix and range, merges store and session codes,
allocates the next sequence (any error inside the try block is re-raised as a
generic `Exception` with prefix "Erro ao gerar código: "), appends the new
full numeric code to the session cache and returns the digit string. -/
def gerar (m : Manager) (lat lon : ℚ) : Except PyError (List ℕ × Manager) :=
  if ¬(-90 ≤ lat ∧ lat ≤ 90) then .error (.valueError msgLat)
  else if ¬(-180 ≤ lon ∧ lon ≤ 180) then .error (.valueError msgLon)
  else if 999 < novoSeq m lat lon then
    .error (.exception ("Erro ao gerar código: " ++ msgLimite))
  else
    .ok (prefixoInicio lat lon ++ pad 3 (novoSeq m lat lon),
      setCache m (prefixoInicio lat lon)
        (m.cache (prefixoInicio lat lon) ++
          [digitsToNat (prefixoInicio lat lon ++ pad 3 (novoSeq m lat lon))]))

/-- Iterated generation within one session, threading the manager state. -/
def gerarN (m : Manager) : List (ℚ × ℚ) → Except PyError (List (List ℕ) × Manager)
  | [] => .ok ([], m)
  | c :: rest =>
    match gerar m c.1 c.2 with
    | .error e => .error e
    | .ok (code, m') =>
      match gerarN m' rest with
      | .error e => .error e
      | .ok (codes, m'') => .ok (code :: codes, m'')

/-- The largest sequence currently allocated in quadrant `P` (0 when none):
maximum over active stored codes in `[P*1000, (P+1)*1000)` merged with the
session cache for `P`, reduced to its last three digits. -/
def quadMax (m : Manager) (P : List ℕ) : ℕ :=
  if storeCodesInRange m.store (digitsToNat P * 1000) (digitsToNat P * 1000 + 1000) ++
      m.cache P = [] then 0
  else lastThree (maxList (storeCodesInRange m.store (digitsToNat P * 1000)
    (digitsToNat P * 1000 + 1000) ++ m.cache P))

theorem digitsToNat_cons_zero (l : List ℕ) : digitsToNat (0 :: l) = digitsToNat l := by
  show l.foldl _ (0 * 10 + 0) = l.foldl _ 0
  norm_num

theorem digitsToNat_append_three_zeros (l : List ℕ) :
    digitsToNat (l ++ [0, 0, 0]) = digitsToNat l * 1000 := by
  rw [digitsToNat_append]
  have h1 : digitsToNat [0, 0, 0] = 0 := by
    show List.foldl _ 0 [0, 0, 0] = 0
    norm_num
  rw [h1]
  norm_num

theorem codigoInicio_eq (lat lon : ℚ) :
    codigoInicio lat lon = digitsToNat (prefixoInicio lat lon) * 1000 := by
  rw [codigoInicio, digitsToNat_append_three_zeros]

theorem codigoFim_eq (lat lon : ℚ) (h99 : bandLon lon ≠ 99) (h180 : bandLon lon ≤ 180) :
    codigoFim lat lon = codigoInicio lat lon + 1000 := by
  rw [codigoFim, codigoInicio, digitsToNat_append_three_zeros,
    digitsToNat_append_three_zeros]
  have hlen : (pad 2 (bandLon lon + 1)).length = (pad 2 (bandLon lon)).length := by
    rcases lt_or_le (bandLon lon) 99 with h | h
    · rw [pad_length_of_lt 2 (bandLon lon) (by norm_num; omega),
        pad_length_of_lt 2 (bandLon lon + 1) (by norm_num; omega)]
    · have h100 : 100 ≤ bandLon lon := by omega
      rw [pad_length_three (bandLon lon) h100 (by omega),
        pad_length_three (bandLon lon + 1) (by omega) (by omega)]
  have hfim : digitsToNat (prefixoFim lat lon) = digitsToNat (prefixoInicio lat lon) + 1 := by
    rw [prefixoFim, prefixoInicio, digitsToNat_cons_zero, digitsToNat_cons_zero,
      digitsToNat_append, digitsToNat_append]
    rw [show digitsToNat (lonStr lon) = bandLon lon from digitsToNat_pad 2 _]
    rw [hlen, digitsToNat_pad]
    simp only [lonStr]
    ring
  rw [hfim]
  ring

theorem mem_storeCodesInRange (s : List Estacao) (lo hi v : ℕ)
    (h : v ∈ storeCodesInRange s lo hi) : lo ≤ v ∧ v < hi := by
  rw [storeCodesInRange] at h
  simp only [List.mem_map] at h
  obtain ⟨e, he, rfl⟩ := h
  have hf := (List.mem_filter.mp he).2
  simp only [Bool.and_eq_true, decide_eq_true_eq] at hf
  exact ⟨hf.1.2, hf.2⟩

/-- The merged list `quadMax` is computed from: active stored codes in the
quadrant's exact numeric range plus the session cache for the prefix. -/
def quadList (m : Manager) (P : List ℕ) : List ℕ :=
  storeCodesInRange m.store (digitsToNat P * 1000) (digitsToNat P * 1000 + 1000) ++
    m.cache P

theorem quadMax_def (m : Manager) (P : List ℕ) :
    quadMax m P = if quadList m P = [] then 0 else lastThree (maxList (quadList m P)) :=
  rfl

/-- Invariant: every session-cache entry for prefix `P` is a full numeric code
inside the quadrant's numeric range. -/
def cacheInRange (m : Manager) (P : List ℕ) : Prop :=
  ∀ v ∈ m.cache P, digitsToNat P * 1000 ≤ v ∧ v < digitsToNat P * 1000 + 1000

theorem mem_quadList (m : Manager) (P : List ℕ) (v : ℕ)
    (hc : cacheInRange m P) (h : v ∈ quadList m P) :
    digitsToNat P * 1000 ≤ v ∧ v < digitsToNat P * 1000 + 1000 := by
  rcases List.mem_append.mp h with h | h
  · exact mem_storeCodesInRange _ _ _ _ h
  · exact hc v h

theorem quadMax_le_999 (m : Manager) (P : List ℕ) : quadMax m P ≤ 999 := by
  rw [quadMax_def]
  split
  · omega
  · rw [lastThree_eq_mod]; omega

theorem maxList_quadList (m : Manager) (P : List ℕ)
    (hc : cacheInRange m P) (hne : quadList m P ≠ []) :
    maxList (quadList m P) = digitsToNat P * 1000 + quadMax m P := by
  have hmem := maxList_mem _ hne
  have hrange := mem_quadList m P _ hc hmem
  rw [quadMax_def, if_neg hne, lastThree_eq_mod]
  omega

theorem todosFor_eq_quadList (m : Manager) (lat lon : ℚ)
    (h99 : bandLon lon ≠ 99) (h180 : bandLon lon ≤ 180) :
    todosFor m lat lon = quadList m (prefixoInicio lat lon) := by
  rw [todosFor, quadList, codigoFim_eq lat lon h99 h180, codigoInicio_eq]

theorem novoSeq_eq (m : Manager) (lat lon : ℚ)
    (h99 : bandLon lon ≠ 99) (h180 : bandLon lon ≤ 180)
    (hc : cacheInRange m (prefixoInicio lat lon)) :
    novoSeq m lat lon = quadMax m (prefixoInicio lat lon) + 1 := by
  rw [novoSeq, todosFor_eq_quadList m lat lon h99 h180]
  by_cases hne : quadList m (prefixoInicio lat lon) = []
  · simp [hne, quadMax_def]
  · rw [if_pos hne, quadMax_def, if_neg hne]

theorem gerar_step (m : Manager) (lat lon : ℚ)
    (h1 : -90 ≤ lat) (h2 : lat ≤ 90) (h3 : -180 ≤ lon) (h4 : lon ≤ 180)
    (h99 : bandLon lon ≠ 99)
    (hc : cacheInRange m (prefixoInicio lat lon))
    (hcap : quadMax m (prefixoInicio lat lon) < 999) :
    gerar m lat lon = .ok
      (prefixoInicio lat lon ++ pad 3 (quadMax m (prefixoInicio lat lon) + 1),
       setCache m (prefixoInicio lat lon)
         (m.cache (prefixoInicio lat lon) ++
           [digitsToNat (prefixoInicio lat lon) * 1000 +
             (quadMax m (prefixoInicio lat lon) + 1)])) := by
  have h180 : bandLon lon ≤ 180 := bandLon_le_180 lon h3 h4
  have hnovo : novoSeq m lat lon = quadMax m (prefixoInicio lat lon) + 1 :=
    novoSeq_eq m lat lon h99 h180 hc
  have hcode : digitsToNat (prefixoInicio lat lon ++
      pad 3 (quadMax m (prefixoInicio lat lon) + 1)) =
      digitsToNat (prefixoInicio lat lon) * 1000 +
        (quadMax m (prefixoInicio lat lon) + 1) := by
    rw [digitsToNat_append, digitsToNat_pad,
      pad_length_of_lt 3 _ (by norm_num; omega)]
    norm_num
  simp only [gerar]
  rw [if_neg (not_not_intro ⟨h1, h2⟩), if_neg (not_not_intro ⟨h3, h4⟩),
    if_neg (show ¬(999 < novoSeq m lat lon) by rw [hnovo]; omega)]
  rw [hnovo, hcode]

theorem setCache_cache_self (m : Manager) (P l : List ℕ) :
    (setCache m P l).cache P = l := by
  simp [setCache]

theorem quadMax_step (m : Manager) (P : List ℕ)
    (hc : cacheInRange m P) (hcap : quadMax m P < 999) :
    quadMax (setCache m P (m.cache P ++ [digitsToNat P * 1000 + (quadMax m P + 1)])) P
      = quadMax m P + 1 := by
  set x := digitsToNat P * 1000 + (quadMax m P + 1) with hx
  have hql : quadList (setCache m P (m.cache P ++ [x])) P = quadList m P ++ [x] := by
    rw [quadList, quadList, setCache_cache_self]
    rw [show (setCache m P (m.cache P ++ [x])).store = m.store from rfl]
    rw [List.append_assoc]
  have hne : quadList m P ++ [x] ≠ [] := by simp
  rw [quadMax_def, hql, if_neg hne]
  have hmax : maxList (quadList m P ++ [x]) = x := by
    rw [maxList_append]
    have hxmax : maxList [x] = x := by simp [maxList]
    rw [hxmax]
    rcases eq_or_ne (quadList m P) [] with hq | hq
    · simp [hq, maxList]
    · rw [maxList_quadList m P hc hq]
      rw [hx]
      exact max_eq_right (by omega)
  rw [hmax, hx, lastThree_eq_mod]
  omega

theorem cacheInRange_step (m : Manager) (P : List ℕ)
    (hc : cacheInRange m P) (hcap : quadMax m P < 999) :
    cacheInRange (setCache m P
      (m.cache P ++ [digitsToNat P * 1000 + (quadMax m P + 1)])) P := by
  intro v hv
  rw [setCache_cache_self] at hv
  rcases List.mem_append.mp hv with h | h
  · exact hc v h
  · simp at h; subst h; omega

theorem gerarN_run (coords : List (ℚ × ℚ)) : ∀ (m : Manager) (P : List ℕ),
    (∀ c ∈ coords, (-90 ≤ c.1 ∧ c.1 ≤ 90) ∧ (-180 ≤ c.2 ∧ c.2 ≤ 180) ∧
      prefixoInicio c.1 c.2 = P ∧ bandLon c.2 ≠ 99) →
    cacheInRange m P →
    quadMax m P + coords.length ≤ 999 →
    ∃ m' : Manager, gerarN m coords = .ok
      (((List.range coords.length).map fun i => P ++ pad 3 (quadMax m P + 1 + i)), m') ∧
      cacheInRange m' P ∧ quadMax m' P = quadMax m P + coords.length := by
  induction coords with
  | nil =>
    intro m P hco hc hcap
    exact ⟨m, by simp [gerarN], hc, by simp⟩
  | cons c rest ih =>
    intro m P hco hc hcap
    obtain ⟨⟨hv1, hv2⟩, ⟨hv3, hv4⟩, hP, h99⟩ := hco c (by simp)
    have hcap1 : quadMax m P < 999 := by
      simp only [List.length_cons] at hcap; omega
    have hstep := gerar_step m c.1 c.2 hv1 hv2 hv3 hv4 h99
      (by rw [hP]; exact hc) (by rw [hP]; exact hcap1)
    rw [hP] at hstep
    obtain ⟨m', hrun, hc', hqm'⟩ := ih
      (setCache m P (m.cache P ++ [digitsToNat P * 1000 + (quadMax m P + 1)])) P
      (fun d hd => hco d (by simp [hd]))
      (cacheInRange_step m P hc hcap1)
      (by
        rw [quadMax_step m P hc hcap1]
        simp only [List.length_cons] at hcap
        omega)
    have hlist : (List.range (rest.length + 1)).map
        (fun i => P ++ pad 3 (quadMax m P + 1 + i)) =
        (P ++ pad 3 (quadMax m P + 1)) ::
          (List.range rest.length).map
            (fun i => P ++ pad 3 (quadMax m P + 1 + 1 + i)) := by
      rw [List.range_succ_eq_map, List.map_cons, List.map_map]
      have h0 : quadMax m P + 1 + 0 = quadMax m P + 1 := by omega
      rw [h0]
      have hfun : ((fun i => P ++ pad 3 (quadMax m P + 1 + i)) ∘ Nat.succ) =
          (fun i => P ++ pad 3 (quadMax m P + 1 + 1 + i)) := by
        funext i
        simp only [Function.comp]
        congr 2
        omega
      rw [hfun]
    refine ⟨m', ?_, hc', ?_⟩
    · show gerarN m (c :: rest) = _
      simp only [gerarN]
      rw [hstep]
      dsimp only
      rw [hrun]
      dsimp only
      rw [quadMax_step m P hc hcap1]
      simp only [List.length_cons]
      rw [hlist]
    · rw [hqm', quadMax_step m P hc hcap1]
      simp only [List.length_cons]
      omega

/-- A Python cell value as it flows through the pipeline: `None`, an integer,
a float (exact rational), or a string. -/
inductive PyVal where
  | vNone
  | vInt (z : ℤ)
  | vRat (q : ℚ)
  | vStr (s : String)
deriving DecidableEq, Repr

/-- Python `str(v)`. -/
def pyShow : PyVal → String
  | .vNone => "None"
  | .vInt z => toString z
  | .vRat q => toString q
  | .vStr s => s

/-- The nullish test `pd.isna(x) or x in ('', None)` used by the enricher. -/
def isNull : PyVal → Bool
  | .vNone => true
  | .vStr s => s == ""
  | _ => false

/-- A Python dict row keyed by column name, as built by `dict(zip(columns,
row))`. -/
abbrev Row := List (String × PyVal)

/-- Python `d[k]` / `d.get(k)`: missing keys read as `None` (the source only
indexes keys it has verified or guarded). -/
def getVal (r : Row) (k : String) : PyVal := (List.lookup k r).getD .vNone

/-- Python `k in d`. -/
def hasKey (r : Row) (k : String) : Bool := (List.lookup k r).isSome


/-- Python dict assignment `d[k] = v`. -/
def upsert (r : Row) (k : String) (v : PyVal) : Row :=
  if hasKey r k then r.map (fun p => if p.1 = k then (k, v) else p) else r ++ [(k, v)]

theorem lookup_cons (k a : String) (b : PyVal) (t : Row) :
    List.lookup k ((a, b) :: t) = if k = a then some b else List.lookup k t := by
  by_cases h : k = a
  · have hb : (k == a) = true := beq_iff_eq.mpr h
    simp [List.lookup, hb, h]
  · have hb : (k == a) = false := beq_eq_false_iff_ne.mpr h
    simp [List.lookup, hb, h]

theorem lookup_map_replace (r : Row) (k : String) (v : PyVal) :
    List.lookup k (r.map fun p => if p.1 = k then (k, v) else p) =
      if (List.lookup k r).isSome then some v else none := by
  induction r with
  | nil => simp
  | cons a t ih =>
    obtain ⟨a1, a2⟩ := a
    by_cases h : a1 = k
    · subst h
      simp [lookup_cons, ih]
    · have h2 : k ≠ a1 := fun hk => h hk.symm
      rw [List.map_cons]
      rw [show (if ((a1, a2) : String × PyVal).1 = k then (k, v) else (a1, a2)) =
        (a1, a2) from if_neg h]
      rw [lookup_cons, if_neg h2, lookup_cons, if_neg h2]
      exact ih

theorem lookup_map_replace_other (r : Row) (k : String) (v : PyVal) (q : String)
    (hne : q ≠ k) :
    List.lookup q (r.map fun p => if p.1 = k then (k, v) else p) =
      List.lookup q r := by
  induction r with
  | nil => simp
  | cons a t ih =>
    obtain ⟨a1, a2⟩ := a
    by_cases h : a1 = k
    · subst h
      simp [lookup_cons, hne, ih]
    · by_cases hq : q = a1
      · simp [lookup_cons, h, hq]
      · simp [lookup_cons, h, hq, ih]

theorem lookup_append_single (k : String) (v : PyVal) (r : Row)
    (h : List.lookup k r = none) :
    List.lookup k (r ++ [(k, v)]) = some v := by
  induction r with
  | nil => simp [lookup_cons]
  | cons a t ih =>
    obtain ⟨a1, a2⟩ := a
    rw [lookup_cons] at h
    by_cases hk : k = a1
    · rw [if_pos hk] at h; simp at h
    · rw [if_neg hk] at h
      rw [List.cons_append, lookup_cons, if_neg hk]
      exact ih h

theorem lookup_append_single_other (q k : String) (v : PyVal) (r : Row)
    (hne : q ≠ k) :
    List.lookup q (r ++ [(k, v)]) = List.lookup q r := by
  induction r with
  | nil => simp [lookup_cons, hne]
  | cons a t ih =>
    obtain ⟨a1, a2⟩ := a
    rw [List.cons_append, lookup_cons, lookup_cons]
    by_cases hq : q = a1
    · rw [if_pos hq, if_pos hq]
    · rw [if_neg hq, if_neg hq]
      exact ih

theorem getVal_upsert_self (r : Row) (k : String) (v : PyVal) :
    getVal (upsert r k v) k = v := by
  rw [upsert]
  by_cases h : hasKey r k
  · rw [if_pos h, getVal, lookup_map_replace]
    rw [hasKey] at h
    rw [if_pos h]
    rfl
  · rw [if_neg h, getVal]
    have hnone : List.lookup k r = none := by
      rw [hasKey] at h
      exact Option.not_isSome_iff_eq_none.mp (by simpa using h)
    rw [lookup_append_single k v r hnone]
    rfl

theorem getVal_upsert_other (r : Row) (k : String) (v : PyVal) (q : String)
    (hne : q ≠ k) :
    getVal (upsert r k v) q = getVal r q := by
  rw [upsert]
  by_cases h : hasKey r k
  · rw [if_pos h, getVal, getVal, lookup_map_replace_other r k v q hne]
  · rw [if_neg h, getVal, getVal, lookup_append_single_other q k v r hne]

/-- Python `float(x)`: succeeds on numbers; a non-numeric string raises
`ValueError`, `None` raises `TypeError`.  String-to-float parsing of numeric
text is not modelled (coordinate cells in the claims are numeric), so any
string reads as the `ValueError` branch. -/
def pyFloat : PyVal → Except PyError ℚ
  | .vInt z => .ok (z : ℚ)
  | .vRat q => .ok q
  | .vStr s => .error (.valueError ("could not convert string to float: " ++ s))
  | .vNone => .error (.typeError
      "float() argument must be a string or a real number, not NoneType")

/-- A polygon of a shapefile layer: containment test (abstracting the shapely
geometry, called as `contains longitude latitude`) plus its attribute row. -/
structure Polygon where
  contains : ℚ → ℚ → Bool
  attrs : Row

/-- A shapefile layer: its column names and polygons in join order. -/
structure Layer where
  cols : List String
  polys : List Polygon

/-- First polygon of the layer containing the point: the row that a GeoPandas
left spatial join exposes at index 0. -/
def firstMatch (L : Layer) (x y : ℚ) : Option Polygon :=
  L.polys.find? fun p => p.contains x y

/-- Column read from the join result: `inter.at[0, c] if c in inter.columns
else None`; a left join with no match reads `NaN`, i.e. null. -/
def joinGet (L : Layer) (res : Option Polygon) (c : String) : PyVal :=
  if c ∈ L.cols then
    match res with
    | some p => getVal p.attrs c
    | none => .vNone
  else .vNone

/-- Longitude read for `Point(registro['Longitude'], registro['Latitude'])`
(line 209); the pipeline calls the enricher after the coordinates were stored
as floats, so the fallback 0 is unreachable there. -/
def pointLon (r : Row) : ℚ :=
  match pyFloat (getVal r "Longitude") with
  | .ok q => q
  | .error _ => 0

/-- Latitude read for the enrichment point (line 209). -/
def pointLat (r : Row) : ℚ :=
  match pyFloat (getVal r "Latitude") with
  | .ok q => q
  | .error _ => 0

/-- `_preencher_codigos_geograficos` (lines 207-226): for each of the four
target fields, assign from the first containing polygon only when the field
is currently null/empty; fields keep their value otherwise, and a point in no
polygon leaves null. -/
def preencher (registro : Row) (gSub gMun : Layer) : Row :=
  let x := pointLon registro
  let y := pointLat registro
  let interSub := firstMatch gSub x y
  let r1 := if isNull (getVal registro "SubBaciaCodigo")
    then upsert registro "SubBaciaCodigo" (joinGet gSub interSub "DNS_NU_SUB")
    else registro
  let r2 := if isNull (getVal r1 "BaciaCodigo")
    then upsert r1 "BaciaCodigo" (joinGet gSub interSub "DNS_DNB_CD")
    else r1
  let interMun := firstMatch gMun x y
  let r3 := if isNull (getVal r2 "MunicipioCodigo")
    then upsert r2 "MunicipioCodigo" (joinGet gMun interMun "dbo__Mun_2")
    else r2
  let r4 := if isNull (getVal r3 "EstadoCodigo")
    then upsert r3 "EstadoCodigo" (joinGet gMun interMun "dbo__Mun_1")
    else r3
  r4

/-- The truthy token tuple of line 362. -/
def truthyTokens : List String := ["SIM", "S", "TRUE", "1", "YES"]

/-- The falsy token tuple of line 364. -/
def falsyTokens : List String := ["NÃO", "NAO", "N", "FALSE", "0", "NO"]

/-- Lines 362-367 on the normalized token: 1 for a truthy token, 0 for a
falsy one, null otherwise; a total function that never raises. -/
def normalizeBool (valor : String) : Option ℕ :=
  if valor ∈ truthyTokens then some 1
  else if valor ∈ falsyTokens then some 0
  else none

/-- `str(x).strip().upper()` (line 361).  Lean's `toUpper` is ASCII-only
where Python's is Unicode-aware; the enumerated tokens are already upper-case,
where the two agree. -/
def pyToken (v : PyVal) : String := (pyShow v).trim.toUpper

/-- Numeric value of a digit character list. -/
def charsVal (l : List Char) : ℕ := l.foldl (fun a c => a * 10 + (c.toNat - 48)) 0

/-- Python `int(s)` on a string: optional sign followed by digits; anything
else raises (`none`).  Fractional or exotic literals are not modelled and
read as failures. -/
def parseIntOpt (s : String) : Option ℤ :=
  match s.data with
  | [] => none
  | c :: rest =>
    if c = '-' then
      if rest ≠ [] ∧ rest.all Char.isDigit then some (-(charsVal rest : ℤ)) else none
    else if (c :: rest).all Char.isDigit then some ((charsVal (c :: rest) : ℤ))
    else none

/-- `int(float(str(x).strip()))` with `(ValueError, TypeError)` caught
(lines 372-377): a total coercion to an optional integer. -/
def pyNumCoerce (v : PyVal) : Option ℤ :=
  match v with
  | .vInt z => some z
  | .vRat q => some (pyTrunc q)
  | .vStr s => parseIntOpt s.trim
  | .vNone => none

/-- `int(x)` with any failure mapped to `None` (export coercion, lines
486-492). -/
def pyIntCast (v : PyVal) : Option ℤ :=
  match v with
  | .vInt z => some z
  | .vRat q => some (pyTrunc q)
  | .vStr s => parseIntOpt s.trim
  | .vNone => none

/-- The boolean source/destination column pairs of lines 349-357. -/
def camposBooleanos : List (String × String) :=
  [("Escala", "TipoEstacaoEscala"),
   ("DescargaLiquida", "TipoEstacaoDescLiquida"),
   ("Sedimentos", "TipoEstacaoSedimentos"),
   ("QualidadeAgua", "TipoEstacaoQualAgua"),
   ("Pluviometro", "TipoEstacaoPluviometro"),
   ("Telemetrica", "TipoEstacaoTelemetrica"),
   ("Operando", "Operando")]

/-- The numeric-code columns of lines 370-371. -/
def camposNumericos : List String :=
  ["BaciaCodigo", "SubBaciaCodigo", "RioCodigo",
   "MunicipioCodigo", "EstadoCodigo", "ResponsavelCodigo"]

/-- One source/destination boolean normalization step (lines 359-367):
writes 1/0/null to the destination column when the source column exists. -/
def boolStep (r : Row) (par : String × String) : Row :=
  if hasKey r par.1 then
    upsert r par.2
      (match normalizeBool (pyToken (getVal r par.1)) with
       | some n => .vInt (n : ℤ)
       | none => .vNone)
  else r

/-- One numeric coercion step (lines 372-377): replaces a present, non-null,
non-empty text code with its integer value, or null when coercion fails. -/
def numStep (r : Row) (campo : String) : Row :=
  if hasKey r campo ∧ getVal r campo ≠ .vNone ∧ getVal r campo ≠ .vStr "" then
    upsert r campo
      (match pyNumCoerce (getVal r campo) with
       | some z => .vInt z
       | none => .vNone)
  else r

/-- Digit list rendered back as the Python string stored in the record. -/
def digitsToString (l : List ℕ) : String := String.mk (l.map fun d => Char.ofNat (d + 48))

/-- The station name used in error messages, `result['Nome']`. -/
def rowNome (r : Row) : String := pyShow (getVal r "Nome")

/-- Body of the per-row try block of `_processar_mdb` (lines 326-343): float
conversion, range validation (raising `ValueError` naming the station),
code generation and geographic enrichment. -/
def processRowTry (m : Manager) (row : Row) (gSub gMun : Layer) :
    Except PyError (Row × Manager) :=
  match pyFloat (getVal row "Latitude") with
  | .error e => .error e
  | .ok lat =>
    match pyFloat (getVal row "Longitude") with
    | .error e => .error e
    | .ok lon =>
      if ¬(-90 ≤ lat ∧ lat ≤ 90) then
        .error (.valueError ("Latitude inválida (" ++ toString lat ++
          ") para estação " ++ rowNome row))
      else if ¬(-180 ≤ lon ∧ lon ≤ 180) then
        .error (.valueError ("Longitude inválida (" ++ toString lon ++
          ") para estação " ++ rowNome row))
      else
        match gerar m lat lon with
        | .error e => .error e
        | .ok (codigo, m') =>
          let r1 := upsert row "Latitude" (.vRat lat)
          let r2 := upsert r1 "Longitude" (.vRat lon)
          let r3 := upsert r2 "Codigo" (.vStr (digitsToString codigo))
          .ok (preencher r3 gSub gMun, m')

/-- One iteration of the row loop of `_processar_mdb` (lines 322-382): the
try block with its `except ValueError` renaming (line 345-346), followed by
boolean normalization, numeric coercion and registry-identifier assignment. -/
def processRow (m : Manager) (row : Row) (gSub gMun : Layer) (nid : ℕ) :
    Except PyError (Row × Manager × ℕ) :=
  match processRowTry m row gSub gMun with
  | .error (.valueError msg) =>
    .error (.valueError ("Erro nas coordenadas da estação " ++ rowNome row ++
      ": " ++ msg))
  | .error e => .error e
  | .ok (r, m') =>
    let rb := camposBooleanos.foldl boolStep r
    let rn := camposNumericos.foldl numStep rb
    if ¬hasKey rn "RegistroID" ∨ getVal rn "RegistroID" = .vNone then
      .ok (upsert rn "RegistroID" (.vInt (nid : ℤ)), m', nid + 1)
    else .ok (rn, m', nid)

/-- The whole row loop, threading manager state and the running registry
identifier; the first uncaught exception aborts with no partial result. -/
def processRows (gSub gMun : Layer) : Manager → ℕ → List Row → Except PyError (List Row)
  | _, _, [] => .ok []
  | m, nid, row :: rest =>
    match processRow m row gSub gMun nid with
    | .error e => .error e
    | .ok (rec, m', nid') =>
      match processRows gSub gMun m' nid' rest with
      | .error e => .error e
      | .ok recs => .ok (rec :: recs)

/-- The source .mdb file as seen through ODBC: whether the
`Estacoes_Novas` table exists, its column names, and its rows. -/
structure MdbFile where
  hasTable : Bool
  columns : List String
  rows : List Row

def colunasObrigatorias : List String := ["Nome", "Latitude", "Longitude"]

/-- `SELECT MAX(RegistroID) FROM dbo.Estacao`, with `or 0` on no rows. -/
def maxRegistroID (store : List Estacao) : ℕ :=
  maxList (store.map fun e => e.registroID)

/-- `_processar_mdb` (lines 236-385) before its outer exception wrapper:
table check, required-column check, row selection `WHERE Codigo IS NULL`,
then the row loop starting one past the stored maximum registry id. -/
def processarMdbInner (m : Manager) (file : MdbFile) (gSub gMun : Layer) :
    Except PyError (List Row) :=
  if ¬file.hasTable then
    .error (.valueError "O arquivo MDB deve conter uma tabela chamada 'Estacoes_Novas'")
  else
    if colunasObrigatorias.filter (fun c => c ∉ file.columns) ≠ [] then
      .error (.valueError
        ("As seguintes colunas obrigatórias estão faltando na tabela 'Estacoes_Novas': " ++
          String.intercalate ", "
            (colunasObrigatorias.filter (fun c => c ∉ file.columns))))
    else
      processRows gSub gMun m (maxRegistroID m.store + 1)
        (file.rows.filter fun r => getVal r "Codigo" = .vNone)

/-- `_processar_mdb` with its outer `except Exception` wrapper (lines
387-388): every failure is re-raised as a generic `Exception`. -/
def processarMdb (m : Manager) (file : MdbFile) (gSub gMun : Layer) :
    Except PyError (List Row) :=
  match processarMdbInner m file gSub gMun with
  | .error e => .error (.exception ("Erro ao processar arquivo MDB: " ++ e.text))
  | .ok l => .ok l

/-- `processar_arquivo` (lines 228-234): extension check, then the session
cache is cleared before any row is processed. -/
def processarArquivo (m : Manager) (caminho : String) (file : MdbFile)
    (gSub gMun : Layer) : Except PyError (List Row) :=
  if ¬(".mdb".data.isSuffixOf caminho.data) then
    .error (.valueError "Formato de arquivo não suportado. Use apenas arquivos .mdb")
  else processarMdb { m with cache := fun _ => [] } file gSub gMun

/-- The fixed export column order of lines 423-442. -/
def ordemColunas : List String :=
  ["RegistroID", "Importado", "Temporario", "Removido", "ImportadoRepetido",
   "BaciaCodigo", "SubBaciaCodigo", "RioCodigo", "EstadoCodigo", "MunicipioCodigo",
   "ResponsavelCodigo", "ResponsavelUnidade", "ResponsavelJurisdicao",
   "OperadoraCodigo", "OperadoraUnidade", "OperadoraSubUnidade", "TipoEstacao",
   "Codigo", "Nome", "CodigoAdicional", "Latitude", "Longitude", "Altitude",
   "AreaDrenagem", "TipoEstacaoEscala", "TipoEstacaoRegistradorNivel",
   "TipoEstacaoDescLiquida", "TipoEstacaoSedimentos", "TipoEstacaoQualAgua",
   "TipoEstacaoPluviometro", "TipoEstacaoRegistradorChuva", "TipoEstacaoTanqueEvapo",
   "TipoEstacaoClimatologica", "TipoEstacaoPiezometria", "TipoEstacaoTelemetrica",
   "PeriodoEscalaInicio", "PeriodoEscalaFim", "PeriodoRegistradorNivelInicio",
   "PeriodoRegistradorNivelFim", "PeriodoDescLiquidaInicio", "PeriodoDescLiquidaFim",
   "PeriodoSedimentosInicio", "PeriodoSedimentosFim", "PeriodoQualAguaInicio",
   "PeriodoQualAguaFim", "PeriodoPluviometroInicio", "PeriodoPluviometroFim",
   "PeriodoRegistradorChuvaInicio", "PeriodoRegistradorChuvaFim",
   "PeriodoTanqueEvapoInicio", "PeriodoTanqueEvapoFim", "PeriodoClimatologicaInicio",
   "PeriodoClimatologicaFim", "PeriodoPiezometriaInicio", "PeriodoPiezometriaFim",
   "PeriodoTelemetricaInicio", "PeriodoTelemetricaFim", "TipoRedeBasica",
   "TipoRedeEnergetica", "RespAlt"]

/-- Columns inserted as integers (lines 476-480). -/
def colunasInteiras : List String :=
  ["Codigo", "RegistroID", "BaciaCodigo", "SubBaciaCodigo", "RioCodigo",
   "EstadoCodigo", "MunicipioCodigo", "ResponsavelCodigo", "TipoEstacao",
   "Importado", "Temporario", "Removido", "ImportadoRepetido"]

/-- Per-cell coercion of the .mdb insert loop (lines 484-494): null stays
null, integer columns go through `int` with failures nulled, everything else
becomes text. -/
def coerceMdbVal (c : String) (v : PyVal) : PyVal :=
  if v = .vNone then .vNone
  else if c ∈ colunasInteiras then
    match pyIntCast v with
    | some z => .vInt z
    | none => .vNone
  else .vStr (pyShow v)

/-- The values tuple for an .mdb insert of one record. -/
def rowValuesMdb (r : Row) : List PyVal :=
  ordemColunas.map fun c => coerceMdbVal c (getVal r c)

/-- One spreadsheet row: the record reordered to the canonical columns with
nulls for missing fields, no further coercion (lines 444-453). -/
def rowValuesXlsx (r : Row) : List PyVal :=
  ordemColunas.map fun c => getVal r c

/-- The insert statement of lines 496-498 (identical for every row). -/
def insertQuery : String :=
  "INSERT INTO Estacao ([" ++ String.intercalate "], [" ordemColunas ++
    "]) VALUES (" ++ String.intercalate "," (ordemColunas.map fun _ => "?") ++ ")"

/-- The external conditions of an export run: template file present, template
copy succeeded, destination opened, per-row insert success (by row position),
and final commit success. -/
structure ExportEnv where
  templateExists : Bool
  copyOk : Bool
  connectOk : Bool
  insertOk : ℕ → Bool
  commitOk : Bool

/-- What an export run produced: spreadsheet rows, or for the .mdb path the
number of insert statements attempted plus the log of per-row failures
(station name shown, failing statement). -/
inductive ExportOutcome where
  | xlsx (rows : List (List PyVal))
  | mdb (attempted : ℕ) (failures : List (String × String))
deriving DecidableEq, Repr

/-- `exportar_resultados` (lines 414-514): empty-input check first, then the
canonical reorder and the extension dispatch; on the .mdb path the template
must exist and be copied and the destination opened, then every row's insert
is attempted with failures caught and logged (lines 500-505), and the single
commit follows. -/
def exportar (env : ExportEnv) (dados : List Row) (caminho : String) :
    Except PyError ExportOutcome :=
  if dados = [] then .error (.valueError "Não há dados para exportar")
  else if ".xlsx".data.isSuffixOf caminho.data then
    .ok (.xlsx (dados.map rowValuesXlsx))
  else if ".mdb".data.isSuffixOf caminho.data then
    if ¬env.templateExists then
      .error (.fileNotFound
        "Arquivo de template 'Codificacao/mdb/template.mdb' não encontrado.")
    else if ¬env.copyOk then
      .error (.ioError "Erro ao copiar o arquivo de template")
    else if ¬env.connectOk then
      .error (.exception "Erro ao escrever no banco de dados MDB: falha ao conectar")
    else if ¬env.commitOk then
      .error (.exception "Erro ao escrever no banco de dados MDB: falha no commit")
    else
      .ok (.mdb dados.length
        (dados.enum.filterMap fun p =>
          if env.insertOk p.1 then none
          else some (pyShow (getVal p.2 "Nome"), insertQuery)))
  else .error (.valueError "Formato de arquivo não suportado. Use .xlsx ou .mdb")

theorem novoSeq_pos (m : Manager) (lat lon : ℚ) : 1 ≤ novoSeq m lat lon := by
  rw [novoSeq]
  split <;> omega

theorem gerar_ok_inv (m : Manager) (lat lon : ℚ) (code : List ℕ) (m' : Manager)
    (h : gerar m lat lon = .ok (code, m')) :
    code = prefixoInicio lat lon ++ pad 3 (novoSeq m lat lon) ∧
    novoSeq m lat lon ≤ 999 ∧
    m' = setCache m (prefixoInicio lat lon)
      (m.cache (prefixoInicio lat lon) ++
        [digitsToNat (prefixoInicio lat lon ++ pad 3 (novoSeq m lat lon))]) := by
  rw [gerar] at h
  split at h
  · exact absurd h (by simp)
  · split at h
    · exact absurd h (by simp)
    · split at h
      · exact absurd h (by simp)
      · rename_i hcap
        simp only [Except.ok.injEq, Prod.mk.injEq] at h
        exact ⟨h.1.symm, by omega, h.2.symm⟩

/-- Claim C1, counterexample: at latitude −20, longitude −43 (both in range)
the generated code is "02043001" — 8 digits, not the 9 digits of `^0\d{8}$`
that the claim asserts for every valid coordinate pair. -/
theorem C1_counterexample :
    (gerar ⟨[], fun _ => []⟩ (-20) (-43)).toOption.map Prod.fst =
      some [0, 2, 0, 4, 3, 0, 0, 1] ∧
    [0, 2, 0, 4, 3, 0, 0, 1].length ≠ 9 := by decide

/-- Claim C1, amended: for valid coordinates with latitude < 20 and
|longitude| < 100 — where both bands render as two digits — a successfully
generated code is a digit string of exactly 8 digits (matching `^0\d{7}$`,
not `^0\d{8}$`), every character is a digit, its first 5 characters are the
quadrant prefix, and the prefix is "0" ++ latBand ++ lonBand with latBand =
80 + floor(|latitude|) for latitude ≥ 0, floor(|latitude|) for latitude < 0,
and lonBand = floor(|longitude|), both zero-padded to two digits.  (For
latitude ≥ 20 or |longitude| ≥ 100 a band takes three digits and the code is
longer.) -/
theorem C1_amended (m : Manager) (lat lon : ℚ) (code : List ℕ)
    (h1 : -90 ≤ lat) (h2 : lat ≤ 90) (h3 : -180 ≤ lon) (h4 : lon ≤ 180)
    (h5 : lat < 20) (h6 : -100 < lon) (h7 : lon < 100)
    (hok : (gerar m lat lon).toOption.map Prod.fst = some code) :
    code.length = 8 ∧ code.take 5 = prefixoInicio lat lon ∧
    prefixoInicio lat lon = 0 :: (pad 2 (bandLat lat) ++ pad 2 (bandLon lon)) ∧
    (∀ d ∈ code, d < 10) := by
  obtain ⟨m', hgen⟩ : ∃ m', gerar m lat lon = .ok (code, m') := by
    cases hg : gerar m lat lon with
    | error e => rw [hg] at hok; simp [Except.toOption] at hok
    | ok p =>
      rw [hg] at hok
      simp [Except.toOption] at hok
      exact ⟨p.2, by rw [← hok]⟩
  obtain ⟨hcode, hcap, _⟩ := gerar_ok_inv m lat lon code m' hgen
  have hlatlen : (pad 2 (bandLat lat)).length = 2 :=
    pad_length_of_lt 2 _ (by
      have := bandLat_le_99 lat h1 h5
      norm_num
      omega)
  have hlonlen : (pad 2 (bandLon lon)).length = 2 :=
    pad_length_of_lt 2 _ (by
      have := bandLon_le_99 lon h6 h7
      norm_num
      omega)
  have hplen : (prefixoInicio lat lon).length = 5 := by
    rw [prefixoInicio, List.length_cons, List.length_append]
    rw [show latStr lat = pad 2 (bandLat lat) from rfl,
      show lonStr lon = pad 2 (bandLon lon) from rfl, hlatlen, hlonlen]
  have hseqlen : (pad 3 (novoSeq m lat lon)).length = 3 :=
    pad_length_of_lt 3 _ (by norm_num; omega)
  refine ⟨?_, ?_, rfl, ?_⟩
  · rw [hcode, List.length_append, hplen, hseqlen]
  · rw [hcode, show (5 : ℕ) = (prefixoInicio lat lon).length from hplen.symm,
      List.take_left]
  · intro d hd
    rw [hcode] at hd
    rcases List.mem_append.mp hd with h | h
    · rw [prefixoInicio] at h
      rcases List.mem_cons.mp h with h | h
      · omega
      · rcases List.mem_append.mp h with h | h
        · exact pad_digits_lt 2 _ d h
        · exact pad_digits_lt 2 _ d h
    · exact pad_digits_lt 3 _ d h

/-- Claim C1, witness: the amended statement at the counterexample's input. -/
theorem C1_witness :
    [0, 2, 0, 4, 3, 0, 0, 1].length = 8 ∧
    [0, 2, 0, 4, 3, 0, 0, 1].take 5 = prefixoInicio (-20) (-43) ∧
    prefixoInicio (-20) (-43) =
      0 :: (pad 2 (bandLat (-20)) ++ pad 2 (bandLon (-43))) ∧
    (∀ d ∈ [0, 2, 0, 4, 3, 0, 0, 1], d < 10) :=
  C1_amended ⟨[], fun _ => []⟩ (-20) (-43) [0, 2, 0, 4, 3, 0, 0, 1]
    (by decide) (by decide) (by decide) (by decide) (by decide) (by decide)
    (by decide) (by decide)

/-- Claim C4, counterexample: at latitude −20, longitude −99 the longitude
band is 99, and the interval passed to the range query is
[2099000, 20100000), not [P*1000, (P+1)*1000) = [2099000, 2100000): the
upper bound comes from the string "0"+"20"+"100"+"000". -/
theorem C4_counterexample :
    codigoInicio (-20) (-99) = 2099000 ∧
    codigoFim (-20) (-99) = 20100000 ∧
    digitsToNat (prefixoInicio (-20) (-99)) = 2099 ∧
    codigoFim (-20) (-99) ≠ codigoInicio (-20) (-99) + 1000 := by decide

/-- Claim C4, amended: for every valid coordinate pair whose longitude band
is not 99, the range-query interval is exactly [P*1000, (P+1)*1000) where P
is the numeric value of the quadrant prefix; the lower bound is P*1000 for
every quadrant, but for longitude band 99 the upper bound jumps to the value
of "0" ++ latBand ++ "100" ++ "000" instead of (P+1)*1000. -/
theorem C4_amended (lat lon : ℚ)
    (h3 : -180 ≤ lon) (h4 : lon ≤ 180) (h99 : bandLon lon ≠ 99) :
    codigoInicio lat lon = digitsToNat (prefixoInicio lat lon) * 1000 ∧
    codigoFim lat lon = codigoInicio lat lon + 1000 :=
  ⟨codigoInicio_eq lat lon,
   codigoFim_eq lat lon h99 (bandLon_le_180 lon h3 h4)⟩

/-- Claim C4, witness: the amended statement for the quadrant of
(−20, −43). -/
theorem C4_witness :
    codigoInicio (-20) (-43) = digitsToNat (prefixoInicio (-20) (-43)) * 1000 ∧
    codigoFim (-20) (-43) = codigoInicio (-20) (-43) + 1000 :=
  C4_amended (-20) (-43) (by decide) (by decide) (by decide)

/-- Claim C2, counterexample: quadrant "02099" (latitude −20, longitude −99,
longitude band 99).  The backing store holds one active code 3000005 — in a
different quadrant, but inside the miscomputed range [2099000, 20100000) —
and no active stored code in quadrant 02099, with an empty session cache, so
the claimed run would start at sequence 1; the first generated code is
"02099006" with sequence 6. -/
theorem C2_counterexample :
    (gerarN ⟨[⟨3000005, 2, false, false, false, false, 1⟩], fun _ => []⟩
      [((-20 : ℚ), (-99 : ℚ))]).toOption.map Prod.fst =
      some [[0, 2, 0, 9, 9, 0, 0, 6]] ∧
    storeCodesInRange [⟨3000005, 2, false, false, false, false, 1⟩]
      (digitsToNat (prefixoInicio (-20) (-99)) * 1000)
      (digitsToNat (prefixoInicio (-20) (-99)) * 1000 + 1000) = [] ∧
    lastThree (digitsToNat [0, 2, 0, 9, 9, 0, 0, 6]) = 6 ∧
    (6 : ℕ) ≠ 0 + 1 := by decide

/-- Claim C2, amended: for a fixed quadrant prefix P whose longitude band is
not 99 (where the range query covers exactly the quadrant), with the session
cache for P holding only codes of that quadrant and the quadrant not
exhausting (merged maximum + N ≤ 999), N successive calls in one session
produce N pairwise-distinct codes whose sequence components form the
contiguous run M+1, M+2, …, M+N, where M (`quadMax`) is the maximum sequence
in the merged set of active stored codes in [P*1000,(P+1)*1000) and
session-cached codes, and M = 0 when that merged set is empty (run starts at
1). -/
theorem C2_amended (m : Manager) (coords : List (ℚ × ℚ)) (P : List ℕ)
    (hco : ∀ c ∈ coords, (-90 ≤ c.1 ∧ c.1 ≤ 90) ∧ (-180 ≤ c.2 ∧ c.2 ≤ 180) ∧
      prefixoInicio c.1 c.2 = P ∧ bandLon c.2 ≠ 99)
    (hcache : cacheInRange m P)
    (hcap : quadMax m P + coords.length ≤ 999) :
    ∃ m' : Manager, gerarN m coords = .ok
      (((List.range coords.length).map fun i => P ++ pad 3 (quadMax m P + 1 + i)), m') ∧
    ((List.range coords.length).map fun i => P ++ pad 3 (quadMax m P + 1 + i)).Nodup := by
  obtain ⟨m', hrun, _, _⟩ := gerarN_run coords m P hco hcache hcap
  refine ⟨m', hrun, ?_⟩
  refine List.Nodup.map_on ?_ (List.nodup_range _)
  intro x hx y hy hfe
  have hx' : x < coords.length := List.mem_range.mp hx
  have hy' : y < coords.length := List.mem_range.mp hy
  have hpads : pad 3 (quadMax m P + 1 + x) = pad 3 (quadMax m P + 1 + y) :=
    List.append_cancel_left hfe
  have := congrArg digitsToNat hpads
  rw [digitsToNat_pad, digitsToNat_pad] at this
  omega

/-- Claim C2, witness: store with active code 2043007 in quadrant 02043,
empty cache, two generations at (−20, −43): codes 02043008 and 02043009. -/
theorem C2_witness :
    ∃ m' : Manager,
      gerarN ⟨[⟨2043007, 2, false, false, false, false, 1⟩], fun _ => []⟩
        [((-20 : ℚ), (-43 : ℚ)), ((-20 : ℚ), (-43 : ℚ))] =
        .ok ([[0, 2, 0, 4, 3, 0, 0, 8], [0, 2, 0, 4, 3, 0, 0, 9]], m') ∧
      ([[0, 2, 0, 4, 3, 0, 0, 8], [0, 2, 0, 4, 3, 0, 0, 9]] :
        List (List ℕ)).Nodup := by
  obtain ⟨m', h1, h2⟩ :=
    C2_amended ⟨[⟨2043007, 2, false, false, false, false, 1⟩], fun _ => []⟩
      [((-20 : ℚ), (-43 : ℚ)), ((-20 : ℚ), (-43 : ℚ))] [0, 2, 0, 4, 3]
      (by decide) (by intro v hv; simp at hv) (by decide)
  have hl : ((List.range
      ([((-20 : ℚ), (-43 : ℚ)), ((-20 : ℚ), (-43 : ℚ))].length)).map
        fun i => [0, 2, 0, 4, 3] ++ pad 3
          (quadMax ⟨[⟨2043007, 2, false, false, false, false, 1⟩], fun _ => []⟩
            [0, 2, 0, 4, 3] + 1 + i)) =
      [[0, 2, 0, 4, 3, 0, 0, 8], [0, 2, 0, 4, 3, 0, 0, 9]] := by decide
  rw [hl] at h1 h2
  exact ⟨m', h1, h2⟩

/-- Claim C3, counterexample: quadrant "02099" (longitude band 99) whose
stored active codes are 2099999 — sequence 999 of this very quadrant, and a
member of the merged range-query result — and 3000998.  The claim requires
the next call to fail and never return a duplicate; instead the call
succeeds and returns "02099999", the numeric duplicate of the stored
2099999. -/
theorem C3_counterexample :
    digitsToNat (prefixoInicio (-20) (-99)) * 1000 + 999 = 2099999 ∧
    (2099999 ∈ storeCodesInRange
      [⟨2099999, 2, false, false, false, false, 1⟩,
       ⟨3000998, 2, false, false, false, false, 2⟩]
      (codigoInicio (-20) (-99)) (codigoFim (-20) (-99))) ∧
    (gerar ⟨[⟨2099999, 2, false, false, false, false, 1⟩,
             ⟨3000998, 2, false, false, false, false, 2⟩], fun _ => []⟩
      (-20) (-99)).toOption.map Prod.fst = some [0, 2, 0, 9, 9, 9, 9, 9] ∧
    digitsToNat [0, 2, 0, 9, 9, 9, 9, 9] = 2099999 := by decide

/-- Claim C3, amended: for a quadrant whose longitude band is not 99, when
the merged set of stored and session-cached codes contains sequence 999 (the
full code P*1000+999), the next call fails — raising the quadrant-capacity
`ValueError` of line 182, surfaced re-wrapped as a generic `Exception` whose
message names the 999-station limit (not as a distinctly typed condition) —
and returns no code: the sequence never wraps, no duplicate is issued, and
the session cache is left unchanged. -/
theorem C3_amended (m : Manager) (lat lon : ℚ)
    (h1 : -90 ≤ lat) (h2 : lat ≤ 90) (h3 : -180 ≤ lon) (h4 : lon ≤ 180)
    (h99 : bandLon lon ≠ 99)
    (hc : cacheInRange m (prefixoInicio lat lon))
    (h999 : digitsToNat (prefixoInicio lat lon) * 1000 + 999 ∈
      quadList m (prefixoInicio lat lon)) :
    gerar m lat lon = .error (.exception ("Erro ao gerar código: " ++ msgLimite)) := by
  have h180 := bandLon_le_180 lon h3 h4
  have hne : quadList m (prefixoInicio lat lon) ≠ [] := by
    intro h
    rw [h] at h999
    simp at h999
  have hmax : maxList (quadList m (prefixoInicio lat lon)) =
      digitsToNat (prefixoInicio lat lon) * 1000 + 999 := by
    apply le_antisymm
    · have hmem := maxList_mem _ hne
      have := mem_quadList m _ _ hc hmem
      omega
    · exact le_maxList _ _ h999
  have hqm : quadMax m (prefixoInicio lat lon) = 999 := by
    rw [quadMax_def, if_neg hne, hmax, lastThree_eq_mod]
    omega
  have hnovo : novoSeq m lat lon = 1000 := by
    rw [novoSeq_eq m lat lon h99 h180 hc, hqm]
  rw [gerar, if_neg (not_not_intro ⟨h1, h2⟩), if_neg (not_not_intro ⟨h3, h4⟩),
    if_pos (by rw [hnovo]; omega)]

/-- Claim C3, witness: quadrant 02043 with stored active code 2043999
(sequence 999); the next generation at (−20, −43) fails with the wrapped
capacity error. -/
theorem C3_witness :
    gerar ⟨[⟨2043999, 2, false, false, false, false, 1⟩], fun _ => []⟩
      (-20) (-43) = .error (.exception ("Erro ao gerar código: " ++ msgLimite)) :=
  C3_amended ⟨[⟨2043999, 2, false, false, false, false, 1⟩], fun _ => []⟩
    (-20) (-43) (by decide) (by decide) (by decide) (by decide) (by decide)
    (by intro v hv; simp at hv) (by decide)

/-- What the session cache actually holds: full numeric codes whose last
three digits are a sequence in [1, 999] and whose leading digits are the
numeric value of the quadrant-prefix key. -/
def CacheFullCodes (m : Manager) : Prop :=
  ∀ (p : List ℕ), ∀ v ∈ m.cache p,
    1 ≤ v % 1000 ∧ v % 1000 ≤ 999 ∧ v / 1000 = digitsToNat p

/-- Claim C9, counterexample: after one generation at (−20, −43) on a fresh
manager, the session cache for prefix "02043" holds the full numeric code
2043001, which is not an integer in [1, 999]. -/
theorem C9_counterexample :
    (gerar ⟨[], fun _ => []⟩ (-20) (-43)).toOption.map
      (fun p => p.2.cache [0, 2, 0, 4, 3]) = some [2043001] ∧
    ¬(1 ≤ 2043001 ∧ 2043001 ≤ 999) := by decide

/-- Claim C9, amended: every value stored in the per-quadrant session cache
is the full numeric code P*1000+s of the generated station — its last three
digits s lie in [1, 999] and its leading digits equal the numeric quadrant
prefix — not the bare sequence number; this shape is preserved by every
successful generation.  The cache is reset to empty at the start of
every import run before any row is processed: the run's outcome does not depend on
the incoming session cache. -/
theorem C9_amended :
    (∀ (m : Manager) (lat lon : ℚ) (code : List ℕ) (m' : Manager),
      gerar m lat lon = .ok (code, m') → CacheFullCodes m → CacheFullCodes m') ∧
    (∀ (m : Manager) (caminho : String) (file : MdbFile) (gSub gMun : Layer),
      processarArquivo m caminho file gSub gMun =
        processarArquivo { m with cache := fun _ => [] } caminho file gSub gMun) := by
  constructor
  · intro m lat lon code m' hok hinv
    obtain ⟨_, hcap, hm'⟩ := gerar_ok_inv m lat lon code m' hok
    have hval : digitsToNat (prefixoInicio lat lon ++ pad 3 (novoSeq m lat lon)) =
        digitsToNat (prefixoInicio lat lon) * 1000 + novoSeq m lat lon := by
      rw [digitsToNat_append, digitsToNat_pad,
        pad_length_of_lt 3 _ (by norm_num; omega)]
      norm_num
    have hpos := novoSeq_pos m lat lon
    intro p v hv
    rw [hm'] at hv
    rw [setCache] at hv
    by_cases hp : p = prefixoInicio lat lon
    · subst hp
      simp only [if_pos rfl] at hv
      rcases List.mem_append.mp hv with h | h
      · exact hinv _ v h
      · simp at h
        subst h
        rw [hval]
        refine ⟨?_, ?_, ?_⟩ <;> omega
    · simp only [if_neg hp] at hv
      exact hinv p v hv
  · intro m caminho file gSub gMun
    rfl

/-- Claim C9, witness: the preserved invariant after the generation of
C9's counterexample, and cache-independence of a concrete import run. -/
theorem C9_witness :
    CacheFullCodes ⟨[], fun q => if q = [0, 2, 0, 4, 3] then [2043001] else []⟩ ∧
    processarArquivo ⟨[], fun _ => [5]⟩ "novas.mdb" ⟨true, [], []⟩ ⟨[], []⟩ ⟨[], []⟩ =
      processarArquivo { Manager.mk [] (fun _ => [5]) with cache := fun _ => [] }
        "novas.mdb" ⟨true, [], []⟩ ⟨[], []⟩ ⟨[], []⟩ :=
  ⟨C9_amended.1 ⟨[], fun _ => []⟩ (-20) (-43) [0, 2, 0, 4, 3, 0, 0, 1]
      ⟨[], fun q => if q = [0, 2, 0, 4, 3] then [2043001] else []⟩ (by rfl)
      (by intro p v hv; simp at hv),
   C9_amended.2 ⟨[], fun _ => [5]⟩ "novas.mdb" ⟨true, [], []⟩ ⟨[], []⟩ ⟨[], []⟩⟩

theorem getVal_ite_upsert_other (c : Prop) [Decidable c] (r : Row) (k : String)
    (v : PyVal) (q : String) (hne : q ≠ k) :
    getVal (if c then upsert r k v else r) q = getVal r q := by
  split
  · exact getVal_upsert_other r k v q hne
  · rfl

theorem getVal_ite_upsert_self (c : Prop) [Decidable c] (r : Row) (k : String)
    (v : PyVal) :
    getVal (if c then upsert r k v else r) k = if c then v else getVal r k := by
  by_cases h : c
  · rw [if_pos h, if_pos h, getVal_upsert_self]
  · rw [if_neg h, if_neg h]

theorem joinGet_none (L : Layer) (c : String) : joinGet L none c = .vNone := by
  rw [joinGet]
  split <;> rfl

theorem preencher_frame (registro : Row) (gSub gMun : Layer) (q : String)
    (h1 : q ≠ "SubBaciaCodigo") (h2 : q ≠ "BaciaCodigo")
    (h3 : q ≠ "MunicipioCodigo") (h4 : q ≠ "EstadoCodigo") :
    getVal (preencher registro gSub gMun) q = getVal registro q := by
  simp only [preencher]
  rw [getVal_ite_upsert_other _ _ "EstadoCodigo" _ q h4]
  rw [getVal_ite_upsert_other _ _ "MunicipioCodigo" _ q h3]
  rw [getVal_ite_upsert_other _ _ "BaciaCodigo" _ q h2]
  rw [getVal_ite_upsert_other _ _ "SubBaciaCodigo" _ q h1]

theorem preencher_sub (registro : Row) (gSub gMun : Layer) :
    getVal (preencher registro gSub gMun) "SubBaciaCodigo" =
      if isNull (getVal registro "SubBaciaCodigo")
      then joinGet gSub (firstMatch gSub (pointLon registro) (pointLat registro))
        "DNS_NU_SUB"
      else getVal registro "SubBaciaCodigo" := by
  simp only [preencher]
  rw [getVal_ite_upsert_other _ _ "EstadoCodigo" _ _ (by decide)]
  rw [getVal_ite_upsert_other _ _ "MunicipioCodigo" _ _ (by decide)]
  rw [getVal_ite_upsert_other _ _ "BaciaCodigo" _ _ (by decide)]
  rw [getVal_ite_upsert_self]

theorem preencher_bacia (registro : Row) (gSub gMun : Layer) :
    getVal (preencher registro gSub gMun) "BaciaCodigo" =
      if isNull (getVal registro "BaciaCodigo")
      then joinGet gSub (firstMatch gSub (pointLon registro) (pointLat registro))
        "DNS_DNB_CD"
      else getVal registro "BaciaCodigo" := by
  simp only [preencher]
  rw [getVal_ite_upsert_other _ _ "EstadoCodigo" _ _ (by decide)]
  rw [getVal_ite_upsert_other _ _ "MunicipioCodigo" _ _ (by decide)]
  rw [getVal_ite_upsert_self]
  rw [getVal_ite_upsert_other _ _ "SubBaciaCodigo" _ _ (by decide)]

theorem preencher_mun (registro : Row) (gSub gMun : Layer) :
    getVal (preencher registro gSub gMun) "MunicipioCodigo" =
      if isNull (getVal registro "MunicipioCodigo")
      then joinGet gMun (firstMatch gMun (pointLon registro) (pointLat registro))
        "dbo__Mun_2"
      else getVal registro "MunicipioCodigo" := by
  simp only [preencher]
  rw [getVal_ite_upsert_other _ _ "EstadoCodigo" _ _ (by decide)]
  rw [getVal_ite_upsert_self]
  rw [getVal_ite_upsert_other _ _ "BaciaCodigo" _ _ (by decide)]
  rw [getVal_ite_upsert_other _ _ "SubBaciaCodigo" _ _ (by decide)]

theorem preencher_est (registro : Row) (gSub gMun : Layer) :
    getVal (preencher registro gSub gMun) "EstadoCodigo" =
      if isNull (getVal registro "EstadoCodigo")
      then joinGet gMun (firstMatch gMun (pointLon registro) (pointLat registro))
        "dbo__Mun_1"
      else getVal registro "EstadoCodigo" := by
  simp only [preencher]
  rw [getVal_ite_upsert_self]
  rw [getVal_ite_upsert_other _ _ "MunicipioCodigo" _ _ (by decide)]
  rw [getVal_ite_upsert_other _ _ "BaciaCodigo" _ _ (by decide)]
  rw [getVal_ite_upsert_other _ _ "SubBaciaCodigo" _ _ (by decide)]

/-- Claim C5: geographic enrichment assigns the four code fields only when
they are null/empty before the call; every field that was non-null and
non-empty keeps its exact value (even when a polygon with a different code
contains the point); every field other than the four is untouched; and a
point contained in no polygon of a layer leaves that layer's fields null —
the function is total, so no error is raised. -/
theorem C5_main (registro : Row) (gSub gMun : Layer) :
    (∀ k : String, isNull (getVal registro k) = false →
      getVal (preencher registro gSub gMun) k = getVal registro k) ∧
    (∀ k : String, k ≠ "SubBaciaCodigo" → k ≠ "BaciaCodigo" →
      k ≠ "MunicipioCodigo" → k ≠ "EstadoCodigo" →
      getVal (preencher registro gSub gMun) k = getVal registro k) ∧
    (firstMatch gSub (pointLon registro) (pointLat registro) = none →
      (isNull (getVal registro "SubBaciaCodigo") = true →
        getVal (preencher registro gSub gMun) "SubBaciaCodigo" = .vNone) ∧
      (isNull (getVal registro "BaciaCodigo") = true →
        getVal (preencher registro gSub gMun) "BaciaCodigo" = .vNone)) ∧
    (firstMatch gMun (pointLon registro) (pointLat registro) = none →
      (isNull (getVal registro "MunicipioCodigo") = true →
        getVal (preencher registro gSub gMun) "MunicipioCodigo" = .vNone) ∧
      (isNull (getVal registro "EstadoCodigo") = true →
        getVal (preencher registro gSub gMun) "EstadoCodigo" = .vNone)) := by
  refine ⟨?_, ?_, ?_, ?_⟩
  · intro k hk
    by_cases h1 : k = "SubBaciaCodigo"
    · subst h1; rw [preencher_sub, if_neg (by simp [hk])]
    · by_cases h2 : k = "BaciaCodigo"
      · subst h2; rw [preencher_bacia, if_neg (by simp [hk])]
      · by_cases h3 : k = "MunicipioCodigo"
        · subst h3; rw [preencher_mun, if_neg (by simp [hk])]
        · by_cases h4 : k = "EstadoCodigo"
          · subst h4; rw [preencher_est, if_neg (by simp [hk])]
          · exact preencher_frame registro gSub gMun k h1 h2 h3 h4
  · intro k h1 h2 h3 h4
    exact preencher_frame registro gSub gMun k h1 h2 h3 h4
  · intro hnone
    constructor
    · intro hnull
      rw [preencher_sub, if_pos (by simp [hnull]), hnone, joinGet_none]
    · intro hnull
      rw [preencher_bacia, if_pos (by simp [hnull]), hnone, joinGet_none]
  · intro hnone
    constructor
    · intro hnull
      rw [preencher_mun, if_pos (by simp [hnull]), hnone, joinGet_none]
    · intro hnull
      rw [preencher_est, if_pos (by simp [hnull]), hnone, joinGet_none]

/-- Claim C5, witness: a record with MunicipioCodigo already 5 keeps it even
though the municipality polygon that contains the point carries code 7; and
a record whose SubBaciaCodigo is null stays null when no sub-basin polygon
contains the point. -/
theorem C5_witness :
    getVal (preencher
      [("MunicipioCodigo", PyVal.vInt 5), ("Latitude", PyVal.vRat (-20)),
        ("Longitude", PyVal.vRat (-43))]
      ⟨["DNS_NU_SUB", "DNS_DNB_CD"], []⟩
      ⟨["dbo__Mun_2", "dbo__Mun_1"],
        [⟨fun _ _ => true, [("dbo__Mun_2", PyVal.vInt 7), ("dbo__Mun_1", PyVal.vInt 9)]⟩]⟩)
      "MunicipioCodigo" =
      getVal [("MunicipioCodigo", PyVal.vInt 5), ("Latitude", PyVal.vRat (-20)),
        ("Longitude", PyVal.vRat (-43))] "MunicipioCodigo" :=
  (C5_main
    [("MunicipioCodigo", PyVal.vInt 5), ("Latitude", PyVal.vRat (-20)),
      ("Longitude", PyVal.vRat (-43))]
    ⟨["DNS_NU_SUB", "DNS_DNB_CD"], []⟩
    ⟨["dbo__Mun_2", "dbo__Mun_1"],
      [⟨fun _ _ => true, [("dbo__Mun_2", PyVal.vInt 7), ("dbo__Mun_1", PyVal.vInt 9)]⟩]⟩).1
    "MunicipioCodigo" (by decide)

/-- Claim C7: boolean-flag normalization is a total function on tokens
(witnessed by its type — it never raises): every token of the truthy tuple
maps to 1, every token of the falsy tuple maps to 0, and every other token
maps to null. -/
theorem C7_main (t : String) :
    (t ∈ truthyTokens → normalizeBool t = some 1) ∧
    (t ∈ falsyTokens → normalizeBool t = some 0) ∧
    (t ∉ truthyTokens → t ∉ falsyTokens → normalizeBool t = none) := by
  have hdisj : ∀ x ∈ falsyTokens, x ∉ truthyTokens := by decide
  refine ⟨?_, ?_, ?_⟩
  · intro h
    rw [normalizeBool, if_pos h]
  · intro h
    rw [normalizeBool, if_neg (hdisj t h), if_pos h]
  · intro h1 h2
    rw [normalizeBool, if_neg h1, if_neg h2]

/-- Claim C7, witness: one token of each kind. -/
theorem C7_witness :
    normalizeBool "SIM" = some 1 ∧ normalizeBool "NÃO" = some 0 ∧
    normalizeBool "TALVEZ" = none :=
  ⟨(C7_main "SIM").1 (by decide),
   (C7_main "NÃO").2.1 (by decide),
   (C7_main "TALVEZ").2.2 (by decide) (by decide)⟩

/-- Claim C10: exporting an empty record list fails immediately with the
"no data to export" `ValueError`, for every destination path and every
external condition — before the extension dispatch, template copy or any
write; no outcome (hence no file content) is produced. -/
theorem C10_main (env : ExportEnv) (caminho : String) :
    exportar env [] caminho = .error (.valueError "Não há dados para exportar") := by
  rw [exportar, if_pos rfl]

/-- Claim C8, counterexample: a destination whose template table is absent
makes every per-row insert fail (`insertOk` constantly false).  The claim
says such an export fails overall before any row is attempted; instead the
run attempts its one row, logs the failure with the record's name and the
insert statement, and reports overall success. -/
theorem C8_counterexample :
    exportar ⟨true, true, true, fun _ => false, true⟩
      [[("Nome", PyVal.vStr "A")]] "saida.mdb" =
      .ok (.mdb 1 [("A", insertQuery)]) ∧ (1 : ℕ) ≠ 0 := by
  refine ⟨?_, by decide⟩
  rfl

/-- Claim C8, amended: structured-file export is best-effort at row
granularity — when the template exists, is copied, the destination opens and
the commit succeeds, every row's insert is attempted (attempted = number of
records), each failing row is logged with the record's name and the failing
statement, and the export reports overall success regardless of how many
rows failed; it fails overall when the template is missing.  A destination
lacking the required template table does not fail overall: each row's insert
fails and is logged and the export still reports success (see the
counterexample). -/
theorem C8_amended (env : ExportEnv) (dados : List Row) (caminho : String)
    (hne : dados ≠ [])
    (hmdb : ".mdb".data.isSuffixOf caminho.data = true)
    (hxlsx : ".xlsx".data.isSuffixOf caminho.data = false) :
    (env.templateExists = true → env.copyOk = true → env.connectOk = true →
      env.commitOk = true →
      exportar env dados caminho = .ok (.mdb dados.length
        (dados.enum.filterMap fun p =>
          if env.insertOk p.1 then none
          else some (pyShow (getVal p.2 "Nome"), insertQuery)))) ∧
    (env.templateExists = false →
      exportar env dados caminho = .error (.fileNotFound
        "Arquivo de template 'Codificacao/mdb/template.mdb' não encontrado.")) := by
  constructor
  · intro h1 h2 h3 h4
    rw [exportar, if_neg hne, if_neg (by rw [hxlsx]; exact Bool.false_ne_true),
      if_pos hmdb, if_neg (by rw [h1]; simp), if_neg (by rw [h2]; simp),
      if_neg (by rw [h3]; simp), if_neg (by rw [h4]; simp)]
  · intro h1
    rw [exportar, if_neg hne, if_neg (by rw [hxlsx]; exact Bool.false_ne_true),
      if_pos hmdb, if_pos (by rw [h1]; simp)]

/-- Claim C8, witness: three rows, the middle insert fails — all three rows
are attempted, one failure is logged with name and statement, and the export
succeeds. -/
theorem C8_witness :
    exportar ⟨true, true, true, fun i => i ≠ 1, true⟩
      [[("Nome", PyVal.vStr "A")], [("Nome", PyVal.vStr "B")],
        [("Nome", PyVal.vStr "C")]] "saida.mdb" =
      .ok (.mdb 3 [("B", insertQuery)]) := by
  have h := (C8_amended ⟨true, true, true, fun i => i ≠ 1, true⟩
    [[("Nome", PyVal.vStr "A")], [("Nome", PyVal.vStr "B")],
      [("Nome", PyVal.vStr "C")]] "saida.mdb"
    (by decide) (by decide) (by decide)).1 rfl rfl rfl rfl
  rw [h]
  rfl

theorem hasKey_of_getVal_ne (r : Row) (k : String) (h : getVal r k ≠ .vNone) :
    hasKey r k = true := by
  rw [getVal] at h
  rw [hasKey]
  cases hl : List.lookup k r with
  | none => rw [hl] at h; simp at h
  | some v => simp

theorem hasKey_upsert (r : Row) (kk : String) (v : PyVal) (k : String)
    (h : hasKey r k = true) : hasKey (upsert r kk v) k = true := by
  rw [upsert]
  by_cases hk : hasKey r kk
  · rw [if_pos hk]
    by_cases he : k = kk
    · subst he
      rw [hasKey, lookup_map_replace]
      rw [hasKey] at h
      rw [if_pos h]
      rfl
    · rw [hasKey, lookup_map_replace_other r kk v k he]
      exact h
  · rw [if_neg hk]
    have he : k ≠ kk := by
      intro hkk
      rw [hkk] at h
      exact hk h
    rw [hasKey, lookup_append_single_other k kk v r he]
    exact h

theorem hasKey_ite_upsert (c : Prop) [Decidable c] (r : Row) (kk : String)
    (v : PyVal) (k : String) (h : hasKey r k = true) :
    hasKey (if c then upsert r kk v else r) k = true := by
  split
  · exact hasKey_upsert r kk v k h
  · exact h

theorem preencher_hasKey (registro : Row) (gSub gMun : Layer) (k : String)
    (h : hasKey registro k = true) :
    hasKey (preencher registro gSub gMun) k = true := by
  simp only [preencher]
  exact hasKey_ite_upsert _ _ _ _ _ (hasKey_ite_upsert _ _ _ _ _
    (hasKey_ite_upsert _ _ _ _ _ (hasKey_ite_upsert _ _ _ _ _ h)))

theorem preencher_preserve_nonnull (registro : Row) (gSub gMun : Layer)
    (k : String) (h : isNull (getVal registro k) = false) :
    getVal (preencher registro gSub gMun) k = getVal registro k := by
  by_cases h1 : k = "SubBaciaCodigo"
  · subst h1; rw [preencher_sub, if_neg (by simp [h])]
  · by_cases h2 : k = "BaciaCodigo"
    · subst h2; rw [preencher_bacia, if_neg (by simp [h])]
    · by_cases h3 : k = "MunicipioCodigo"
      · subst h3; rw [preencher_mun, if_neg (by simp [h])]
      · by_cases h4 : k = "EstadoCodigo"
        · subst h4; rw [preencher_est, if_neg (by simp [h])]
        · exact preencher_frame registro gSub gMun k h1 h2 h3 h4

theorem boolStep_getVal_other (r : Row) (par : String × String) (q : String)
    (h : q ≠ par.2) : getVal (boolStep r par) q = getVal r q := by
  rw [boolStep]
  split
  · exact getVal_upsert_other _ _ _ _ h
  · rfl

theorem boolStep_getVal_self (r : Row) (par : String × String)
    (h : hasKey r par.1 = true) :
    getVal (boolStep r par) par.2 =
      (match normalizeBool (pyToken (getVal r par.1)) with
       | some n => PyVal.vInt (n : ℤ)
       | none => PyVal.vNone) := by
  rw [boolStep, if_pos h, getVal_upsert_self]

theorem boolStep_hasKey (r : Row) (par : String × String) (k : String)
    (h : hasKey r k = true) : hasKey (boolStep r par) k = true := by
  rw [boolStep]
  split
  · exact hasKey_upsert _ _ _ _ h
  · exact h

theorem foldl_boolStep_getVal (l : List (String × String)) (r : Row) (q : String)
    (h : ∀ p ∈ l, q ≠ p.2) : getVal (l.foldl boolStep r) q = getVal r q := by
  induction l generalizing r with
  | nil => rfl
  | cons p t ih =>
    rw [List.foldl_cons]
    rw [ih (boolStep r p) (fun p' hp' => h p' (by simp [hp']))]
    exact boolStep_getVal_other r p q (h p (by simp))

theorem foldl_boolStep_hasKey (l : List (String × String)) (r : Row) (k : String)
    (h : hasKey r k = true) : hasKey (l.foldl boolStep r) k = true := by
  induction l generalizing r with
  | nil => exact h
  | cons p t ih =>
    rw [List.foldl_cons]
    exact ih (boolStep r p) (boolStep_hasKey r p k h)

theorem numStep_getVal_other (r : Row) (campo q : String) (h : q ≠ campo) :
    getVal (numStep r campo) q = getVal r q := by
  rw [numStep]
  split
  · exact getVal_upsert_other _ _ _ _ h
  · rfl

theorem numStep_getVal_self (r : Row) (campo : String) :
    getVal (numStep r campo) campo =
      if hasKey r campo ∧ getVal r campo ≠ .vNone ∧ getVal r campo ≠ .vStr "" then
        (match pyNumCoerce (getVal r campo) with
         | some z => PyVal.vInt z
         | none => PyVal.vNone)
      else getVal r campo := by
  rw [numStep]
  by_cases h : hasKey r campo ∧ getVal r campo ≠ PyVal.vNone ∧
      getVal r campo ≠ PyVal.vStr ""
  · rw [if_pos h, if_pos h, getVal_upsert_self]
  · rw [if_neg h, if_neg h]

theorem numStep_hasKey (r : Row) (campo k : String)
    (h : hasKey r k = true) : hasKey (numStep r campo) k = true := by
  rw [numStep]
  split
  · exact hasKey_upsert _ _ _ _ h
  · exact h

theorem foldl_numStep_getVal (l : List String) (r : Row) (q : String)
    (h : q ∉ l) : getVal (l.foldl numStep r) q = getVal r q := by
  induction l generalizing r with
  | nil => rfl
  | cons c t ih =>
    rw [List.foldl_cons]
    rw [ih (numStep r c) (fun hq => h (by simp [hq]))]
    exact numStep_getVal_other r c q (fun hq => h (by simp [hq]))

theorem foldl_numStep_hasKey (l : List String) (r : Row) (k : String)
    (h : hasKey r k = true) : hasKey (l.foldl numStep r) k = true := by
  induction l generalizing r with
  | nil => exact h
  | cons c t ih =>
    rw [List.foldl_cons]
    exact ih (numStep r c) (numStep_hasKey r c k h)

theorem boolFold_getVal (r : Row) (par : String × String)
    (hmem : par ∈ camposBooleanos) (hkey : hasKey r par.1 = true) :
    getVal (camposBooleanos.foldl boolStep r) par.2 =
      (match normalizeBool (pyToken (getVal r par.1)) with
       | some n => PyVal.vInt (n : ℤ)
       | none => PyVal.vNone) := by
  obtain ⟨s, t, hst⟩ := List.append_of_mem hmem
  have hnodup : camposBooleanos.Nodup := by decide
  have hcross : ∀ p ∈ camposBooleanos, ∀ q ∈ camposBooleanos, p.2 = q.1 → p = q := by
    decide
  have hdest : ∀ p ∈ camposBooleanos, ∀ q ∈ camposBooleanos, p ≠ q → p.2 ≠ q.2 := by
    decide
  have hmemS : ∀ p ∈ s, p ∈ camposBooleanos := by
    intro p hp
    rw [hst]
    exact List.mem_append_left _ hp
  have hmemT : ∀ p ∈ t, p ∈ camposBooleanos := by
    intro p hp
    rw [hst]
    exact List.mem_append_right _ (List.mem_cons_of_mem _ hp)
  have hnodup' := hnodup
  rw [hst] at hnodup'
  have hsplit := List.nodup_append.mp hnodup'
  have hparS : par ∉ s := fun hin => (hsplit.2.2 hin (by simp)).elim
  have hparT : par ∉ t := (List.nodup_cons.mp hsplit.2.1).1
  rw [hst, List.foldl_append, List.foldl_cons]
  rw [foldl_boolStep_getVal t _ par.2 (fun p hp heq => by
    have hpC := hmemT p hp
    have hpne : p ≠ par := fun hpe => hparT (hpe ▸ hp)
    exact hdest par hmem p hpC (fun hpe => hpne hpe.symm) heq)]
  rw [boolStep_getVal_self _ par (foldl_boolStep_hasKey s r par.1 hkey)]
  rw [foldl_boolStep_getVal s r par.1 (fun p hp heq => by
    have hpC := hmemS p hp
    have := hcross p hpC par hmem heq.symm
    exact hparS (this ▸ hp))]

theorem numFold_getVal (r : Row) (campo : String)
    (hmem : campo ∈ camposNumericos) (hkey : hasKey r campo = true) :
    getVal (camposNumericos.foldl numStep r) campo =
      if getVal r campo ≠ .vNone ∧ getVal r campo ≠ .vStr "" then
        (match pyNumCoerce (getVal r campo) with
         | some z => PyVal.vInt z
         | none => PyVal.vNone)
      else getVal r campo := by
  obtain ⟨s, t, hst⟩ := List.append_of_mem hmem
  have hnodup : camposNumericos.Nodup := by decide
  have hnodup' := hnodup
  rw [hst] at hnodup'
  have hsplit := List.nodup_append.mp hnodup'
  have hparS : campo ∉ s := fun hin => (hsplit.2.2 hin (by simp)).elim
  have hparT : campo ∉ t := (List.nodup_cons.mp hsplit.2.1).1
  rw [hst, List.foldl_append, List.foldl_cons]
  rw [foldl_numStep_getVal t _ campo hparT]
  rw [numStep_getVal_self]
  rw [foldl_numStep_getVal s r campo hparS]
  by_cases hv : getVal r campo ≠ PyVal.vNone ∧ getVal r campo ≠ PyVal.vStr ""
  · rw [if_pos ⟨foldl_numStep_hasKey s r campo hkey, hv.1, hv.2⟩, if_pos hv]
  · rw [if_neg (fun hc => hv ⟨hc.2.1, hc.2.2⟩), if_neg hv]

/-- A selected source row whose numeric latitude or longitude is outside the
geographic bounds. -/
def badCoordRow (r : Row) : Prop :=
  ∃ lat lon : ℚ, pyFloat (getVal r "Latitude") = .ok lat ∧
    pyFloat (getVal r "Longitude") = .ok lon ∧
    (¬(-90 ≤ lat ∧ lat ≤ 90) ∨ ¬(-180 ≤ lon ∧ lon ≤ 180))

theorem processRow_isError_of_bad (m : Manager) (row : Row) (gSub gMun : Layer)
    (nid : ℕ) (h : badCoordRow row) :
    ∃ e, processRow m row gSub gMun nid = .error e := by
  obtain ⟨lat, lon, hla, hlo, hbad⟩ := h
  rw [processRow, processRowTry, hla, hlo]
  dsimp only
  by_cases hlt : ¬(-90 ≤ lat ∧ lat ≤ 90)
  · rw [if_pos hlt]
    exact ⟨_, rfl⟩
  · have hlon : ¬(-180 ≤ lon ∧ lon ≤ 180) := by tauto
    rw [if_neg hlt, if_pos hlon]
    exact ⟨_, rfl⟩

theorem processRows_error_of_bad (gSub gMun : Layer) (rows : List Row) :
    ∀ (m : Manager) (nid : ℕ), (∃ r ∈ rows, badCoordRow r) →
    ∃ e, processRows gSub gMun m nid rows = .error e := by
  induction rows with
  | nil =>
    intro m nid hex
    obtain ⟨r, hr, _⟩ := hex
    simp at hr
  | cons row rest ih =>
    intro m nid hex
    obtain ⟨r, hr, hbad⟩ := hex
    rcases List.mem_cons.mp hr with hr | hr
    · subst hr
      obtain ⟨e, he⟩ := processRow_isError_of_bad m r gSub gMun nid hbad
      exact ⟨e, by simp only [processRows]; rw [he]⟩
    · cases hres : processRow m row gSub gMun nid with
      | error e => exact ⟨e, by simp only [processRows]; rw [hres]⟩
      | ok trip =>
        obtain ⟨rec, m', nid'⟩ := trip
        obtain ⟨e, he⟩ := ih m' nid' ⟨r, hr, hbad⟩
        refine ⟨e, ?_⟩
        simp only [processRows]
        rw [hres]
        simp only []
        rw [he]

theorem processRow_ok_eq (m : Manager) (row : Row) (gSub gMun : Layer) (nid : ℕ)
    (tr : Row) (m₂ : Manager)
    (htry : processRowTry m row gSub gMun = .ok (tr, m₂)) :
    processRow m row gSub gMun nid =
      (if ¬hasKey (camposNumericos.foldl numStep (camposBooleanos.foldl boolStep tr))
            "RegistroID" ∨
          getVal (camposNumericos.foldl numStep (camposBooleanos.foldl boolStep tr))
            "RegistroID" = .vNone
       then .ok (upsert (camposNumericos.foldl numStep
          (camposBooleanos.foldl boolStep tr)) "RegistroID" (.vInt (nid : ℤ)),
          m₂, nid + 1)
       else .ok (camposNumericos.foldl numStep (camposBooleanos.foldl boolStep tr),
          m₂, nid)) := by
  simp only [processRow, htry]

theorem processarMdb_error_of_bad (m : Manager) (file : MdbFile) (gSub gMun : Layer)
    (hex : ∃ r ∈ file.rows.filter (fun r => getVal r "Codigo" = PyVal.vNone),
      badCoordRow r) :
    ∃ e, processarMdb m file gSub gMun = .error e := by
  cases hinner : processarMdbInner m file gSub gMun with
  | error e => exact ⟨_, by rw [processarMdb, hinner]⟩
  | ok l =>
    exfalso
    rw [processarMdbInner] at hinner
    by_cases ht : ¬file.hasTable
    · rw [if_pos ht] at hinner
      exact absurd hinner (by simp)
    · rw [if_neg ht] at hinner
      by_cases hc : colunasObrigatorias.filter (fun c => c ∉ file.columns) ≠ []
      · rw [if_pos hc] at hinner
        exact absurd hinner (by simp)
      · rw [if_neg hc] at hinner
        obtain ⟨e, he⟩ := processRows_error_of_bad gSub gMun
          (file.rows.filter fun r => getVal r "Codigo" = PyVal.vNone)
          m (maxRegistroID m.store + 1) hex
        rw [he] at hinner
        exact absurd hinner (by simp)

theorem processarMdb_names_station (m : Manager) (file : MdbFile)
    (gSub gMun : Layer) (row : Row) (rest : List Row) (lat lon : ℚ)
    (ht : file.hasTable = true)
    (hcols : colunasObrigatorias.filter (fun c => c ∉ file.columns) = [])
    (hsel : file.rows.filter (fun r => getVal r "Codigo" = PyVal.vNone) = row :: rest)
    (hla : pyFloat (getVal row "Latitude") = .ok lat)
    (hlo : pyFloat (getVal row "Longitude") = .ok lon)
    (hbad : ¬(-90 ≤ lat ∧ lat ≤ 90)) :
    processarMdb m file gSub gMun = .error (.exception
      ("Erro ao processar arquivo MDB: " ++
        ("Erro nas coordenadas da estação " ++ rowNome row ++ ": " ++
          ("Latitude inválida (" ++ toString lat ++ ") para estação " ++
            rowNome row)))) := by
  have hrow : processRow m row gSub gMun (maxRegistroID m.store + 1) =
      .error (.valueError ("Erro nas coordenadas da estação " ++ rowNome row ++
        ": " ++ ("Latitude inválida (" ++ toString lat ++ ") para estação " ++
          rowNome row))) := by
    rw [processRow, processRowTry, hla, hlo]
    dsimp only
    rw [if_pos hbad]
  have hrows : processRows gSub gMun m (maxRegistroID m.store + 1) (row :: rest) =
      .error (.valueError ("Erro nas coordenadas da estação " ++ rowNome row ++
        ": " ++ ("Latitude inválida (" ++ toString lat ++ ") para estação " ++
          rowNome row))) := by
    simp only [processRows]
    rw [hrow]
  have hinner : processarMdbInner m file gSub gMun =
      .error (.valueError ("Erro nas coordenadas da estação " ++ rowNome row ++
        ": " ++ ("Latitude inválida (" ++ toString lat ++ ") para estação " ++
          rowNome row))) := by
    rw [processarMdbInner, if_neg (by simp [ht]), if_neg (not_not_intro hcols),
      hsel, hrows]
  rw [processarMdb, hinner]
  rfl

theorem processRow_coercions (m : Manager) (row : Row) (gSub gMun : Layer)
    (nid : ℕ) (lat lon : ℚ) (code : List ℕ) (m₂ : Manager)
    (hla : pyFloat (getVal row "Latitude") = .ok lat)
    (hlo : pyFloat (getVal row "Longitude") = .ok lon)
    (h1 : -90 ≤ lat) (h2 : lat ≤ 90) (h3 : -180 ≤ lon) (h4 : lon ≤ 180)
    (hgen : gerar m lat lon = .ok (code, m₂)) :
    ∃ (rec : Row) (nid' : ℕ), processRow m row gSub gMun nid = .ok (rec, m₂, nid') ∧
      (∀ par ∈ camposBooleanos, hasKey row par.1 = true →
        normalizeBool (pyToken (getVal row par.1)) = none →
        getVal rec par.2 = PyVal.vNone) ∧
      (∀ campo ∈ camposNumericos, ∀ s : String,
        getVal row campo = PyVal.vStr s → s ≠ "" → parseIntOpt s.trim = none →
        getVal rec campo = PyVal.vNone) := by
  have htry : processRowTry m row gSub gMun = .ok
      (preencher (upsert (upsert (upsert row "Latitude" (PyVal.vRat lat))
        "Longitude" (PyVal.vRat lon)) "Codigo"
        (PyVal.vStr (digitsToString code))) gSub gMun, m₂) := by
    rw [processRowTry, hla, hlo]
    dsimp only
    rw [if_neg (not_not_intro ⟨h1, h2⟩), if_neg (not_not_intro ⟨h3, h4⟩), hgen]
  generalize htr : preencher (upsert (upsert (upsert row "Latitude"
    (PyVal.vRat lat)) "Longitude" (PyVal.vRat lon)) "Codigo"
    (PyVal.vStr (digitsToString code))) gSub gMun = tr at htry
  have masterBK : ∀ p ∈ camposBooleanos, p.1 ≠ "Latitude" ∧ p.1 ≠ "Longitude" ∧
      p.1 ≠ "Codigo" ∧ p.1 ≠ "SubBaciaCodigo" ∧ p.1 ≠ "BaciaCodigo" ∧
      p.1 ≠ "MunicipioCodigo" ∧ p.1 ≠ "EstadoCodigo" := by decide
  have masterBD : ∀ p ∈ camposBooleanos, p.2 ∉ camposNumericos := by decide
  have masterBR : ∀ p ∈ camposBooleanos, p.2 ≠ "RegistroID" := by decide
  have masterNK : ∀ c ∈ camposNumericos, c ≠ "Latitude" ∧ c ≠ "Longitude" ∧
      c ≠ "Codigo" := by decide
  have masterND : ∀ c ∈ camposNumericos, ∀ p ∈ camposBooleanos, c ≠ p.2 := by decide
  have masterNR : ∀ c ∈ camposNumericos, c ≠ "RegistroID" := by decide
  have hbool : ∀ par ∈ camposBooleanos, hasKey row par.1 = true →
      normalizeBool (pyToken (getVal row par.1)) = none →
      getVal (camposNumericos.foldl numStep (camposBooleanos.foldl boolStep tr))
        par.2 = PyVal.vNone := by
    intro par hmem hkey hnone
    obtain ⟨k1, k2, k3, k4, k5, k6, k7⟩ := masterBK par hmem
    have hval : getVal tr par.1 = getVal row par.1 := by
      rw [← htr, preencher_frame _ _ _ _ k4 k5 k6 k7,
        getVal_upsert_other _ "Codigo" _ _ k3,
        getVal_upsert_other _ "Longitude" _ _ k2,
        getVal_upsert_other _ "Latitude" _ _ k1]
    have hk2 : hasKey tr par.1 = true := by
      rw [← htr]
      exact preencher_hasKey _ _ _ _ (hasKey_upsert _ _ _ _
        (hasKey_upsert _ _ _ _ (hasKey_upsert _ _ _ _ hkey)))
    have hb := boolFold_getVal tr par hmem hk2
    rw [hval, hnone] at hb
    rw [foldl_numStep_getVal _ _ _ (masterBD par hmem), hb]
  have hnum : ∀ campo ∈ camposNumericos, ∀ s : String,
      getVal row campo = PyVal.vStr s → s ≠ "" → parseIntOpt s.trim = none →
      getVal (camposNumericos.foldl numStep (camposBooleanos.foldl boolStep tr))
        campo = PyVal.vNone := by
    intro campo hmem s hs hse hparse
    obtain ⟨k1, k2, k3⟩ := masterNK campo hmem
    have h3v : getVal (upsert (upsert (upsert row "Latitude" (PyVal.vRat lat))
        "Longitude" (PyVal.vRat lon)) "Codigo" (PyVal.vStr (digitsToString code)))
        campo = PyVal.vStr s := by
      rw [getVal_upsert_other _ "Codigo" _ _ k3,
        getVal_upsert_other _ "Longitude" _ _ k2,
        getVal_upsert_other _ "Latitude" _ _ k1]
      exact hs
    have hnullf : isNull (PyVal.vStr s) = false := by
      rw [isNull]
      exact beq_eq_false_iff_ne.mpr hse
    have htrv : getVal tr campo = PyVal.vStr s := by
      rw [← htr, preencher_preserve_nonnull _ _ _ _ (by rw [h3v]; exact hnullf),
        h3v]
    have hkrow : hasKey row campo = true :=
      hasKey_of_getVal_ne row campo (by rw [hs]; simp)
    have hktr : hasKey tr campo = true := by
      rw [← htr]
      exact preencher_hasKey _ _ _ _ (hasKey_upsert _ _ _ _
        (hasKey_upsert _ _ _ _ (hasKey_upsert _ _ _ _ hkrow)))
    have hbfold : getVal (camposBooleanos.foldl boolStep tr) campo =
        PyVal.vStr s := by
      rw [foldl_boolStep_getVal _ _ _ (fun p hp => masterND campo hmem p hp), htrv]
    have hkb : hasKey (camposBooleanos.foldl boolStep tr) campo = true :=
      foldl_boolStep_hasKey _ _ _ hktr
    have hnf := numFold_getVal (camposBooleanos.foldl boolStep tr) campo hmem hkb
    rw [hbfold] at hnf
    rw [if_pos ⟨by simp, by simp [hse]⟩] at hnf
    rw [show pyNumCoerce (PyVal.vStr s) = parseIntOpt s.trim from rfl, hparse] at hnf
    exact hnf
  have heq := processRow_ok_eq m row gSub gMun nid tr m₂ htry
  by_cases hreg : ¬hasKey (camposNumericos.foldl numStep
      (camposBooleanos.foldl boolStep tr)) "RegistroID" ∨
      getVal (camposNumericos.foldl numStep (camposBooleanos.foldl boolStep tr))
        "RegistroID" = PyVal.vNone
  · refine ⟨_, _, by rw [heq, if_pos hreg], ?_, ?_⟩
    · intro par hmem hkey hnone
      rw [getVal_upsert_other _ "RegistroID" _ _ (masterBR par hmem)]
      exact hbool par hmem hkey hnone
    · intro campo hmem s hs hse hparse
      rw [getVal_upsert_other _ "RegistroID" _ _ (masterNR campo hmem)]
      exact hnum campo hmem s hs hse hparse
  · exact ⟨_, _, by rw [heq, if_neg hreg], hbool, hnum⟩

/-- Claim C6: (1) if any selected source row (code field null) has a numeric
latitude or longitude out of range, the import as a whole returns an error
and no partial record sequence; (2) when the offending row is the first
selected row (its coordinate cells both numeric), the single aborting error
names that station twice in its message; (3) by contrast, once a row's
coordinates are valid and code generation succeeds, the row is processed
successfully whatever its boolean or numeric-code cells hold — a boolean
token outside the vocabulary ends as null in the destination flag column and
a non-numeric text in a numeric-code column ends as null, never as an
abort. -/
theorem C6_main :
    (∀ (m : Manager) (file : MdbFile) (gSub gMun : Layer),
      (∃ r ∈ file.rows.filter (fun r => getVal r "Codigo" = PyVal.vNone),
        badCoordRow r) →
      ∃ e, processarMdb m file gSub gMun = .error e) ∧
    (∀ (m : Manager) (file : MdbFile) (gSub gMun : Layer) (row : Row)
        (rest : List Row) (lat lon : ℚ),
      file.hasTable = true →
      colunasObrigatorias.filter (fun c => c ∉ file.columns) = [] →
      file.rows.filter (fun r => getVal r "Codigo" = PyVal.vNone) = row :: rest →
      pyFloat (getVal row "Latitude") = .ok lat →
      pyFloat (getVal row "Longitude") = .ok lon →
      ¬(-90 ≤ lat ∧ lat ≤ 90) →
      processarMdb m file gSub gMun = .error (.exception
        ("Erro ao processar arquivo MDB: " ++
          ("Erro nas coordenadas da estação " ++ rowNome row ++ ": " ++
            ("Latitude inválida (" ++ toString lat ++ ") para estação " ++
              rowNome row))))) ∧
    (∀ (m : Manager) (row : Row) (gSub gMun : Layer) (nid : ℕ) (lat lon : ℚ)
        (code : List ℕ) (m₂ : Manager),
      pyFloat (getVal row "Latitude") = .ok lat →
      pyFloat (getVal row "Longitude") = .ok lon →
      -90 ≤ lat → lat ≤ 90 → -180 ≤ lon → lon ≤ 180 →
      gerar m lat lon = .ok (code, m₂) →
      ∃ (rec : Row) (nid' : ℕ),
        processRow m row gSub gMun nid = .ok (rec, m₂, nid') ∧
        (∀ par ∈ camposBooleanos, hasKey row par.1 = true →
          normalizeBool (pyToken (getVal row par.1)) = none →
          getVal rec par.2 = PyVal.vNone) ∧
        (∀ campo ∈ camposNumericos, ∀ s : String,
          getVal row campo = PyVal.vStr s → s ≠ "" → parseIntOpt s.trim = none →
          getVal rec campo = PyVal.vNone)) :=
  ⟨processarMdb_error_of_bad,
   fun m file gSub gMun row rest lat lon ht hcols hsel hla hlo hbad =>
     processarMdb_names_station m file gSub gMun row rest lat lon ht hcols hsel
       hla hlo hbad,
   processRow_coercions⟩

/-- Claim C6, witness: an import whose only selected row has latitude 200
aborts with an error. -/
theorem C6_witness :
    ∃ e, processarMdb ⟨[], fun _ => []⟩
      ⟨true, ["Nome", "Latitude", "Longitude"],
        [[("Nome", PyVal.vStr "X"), ("Latitude", PyVal.vRat 200),
          ("Longitude", PyVal.vRat (-43)), ("Codigo", PyVal.vNone)]]⟩
      ⟨[], []⟩ ⟨[], []⟩ = .error e :=
  C6_main.1 ⟨[], fun _ => []⟩
    ⟨true, ["Nome", "Latitude", "Longitude"],
      [[("Nome", PyVal.vStr "X"), ("Latitude", PyVal.vRat 200),
        ("Longitude", PyVal.vRat (-43)), ("Codigo", PyVal.vNone)]]⟩
    ⟨[], []⟩ ⟨[], []⟩
    ⟨[("Nome", PyVal.vStr "X"), ("Latitude", PyVal.vRat 200),
      ("Longitude", PyVal.vRat (-43)), ("Codigo", PyVal.vNone)],
     by decide,
     ⟨200, -43, by rfl, by rfl, Or.inl (by decide)⟩⟩
